import Mathlib

/-!
# Per-frame core of the two inference filters

Shallow embedding of the algorithmic parts of
`plugins/obs-filters/circle-avatar-filter.c` (face box: anchor grid, box
decode, temporal stabiliser) and `plugins/obs-filters/background-mask.c`
(mask threshold, UYVY mirror), and of the two per-frame entry points
`circle_avatar_video` and `background_mask_video` that run them.

Conventions of the embedding.

* A C `float`/`double` value is an exact rational (`ℚ`): comparisons and
  float-to-integer conversions are then exactly those of C on finite values,
  while `+`, `*` and `/` are the exact operations (rounding of the machine
  operations is not modelled). The temporal stabiliser is the exception: its
  sums, means, differences and steps decide a branch, so there every
  single-precision operation is the exact operation followed by `round_f32`.
* A C array reached through a pointer is a total function from the index; a
  theorem about a loop says which indices it writes. The three-node circular
  `struct box` list is a table of three nodes indexed by `Fin 3`, a node's
  `next` being the index plus one.
* A `for` loop is `for_loop body init n`, the state after `n` iterations.
* `int` and `uint32_t` counters and offsets are natural numbers or integers
  without wrap-around; the places where C would overflow are named in the
  comments of the definitions concerned.
* The video scaler and the TFLite interpreter are libraries outside these
  sources: the entry points take them as parameters (`mask_collaborators`,
  `face_collaborators`) and the theorems hold for every choice of them. A
  buffer pointer that may be NULL is an `Option`; a buffer the code allocates
  with `bzalloc` starts as the zero function.
-/

/-- The loop `for (i = 0; i < n; ++i) body` on a state: `for_loop body init n`
is the state after the `n` iterations `i = 0, .., n - 1`. -/
def for_loop {σ : Type} (body : σ → Nat → σ) (init : σ) : Nat → σ
  | 0 => init
  | n + 1 => body (for_loop body init n) n

/-- Conversion of a float to `int`: the fractional part is discarded
(truncation toward zero). Values outside the range of `int` are undefined in
C and are not wrapped here. -/
def float_to_int (x : ℚ) : Int := if 0 ≤ x then ⌊x⌋ else ⌈x⌉

/-- Conversion of a float to `uint8_t`: truncation toward zero. A value whose
truncation lies outside `0..255` is undefined in C; the model reduces it
modulo 256. -/
def float_to_uint8 (x : ℚ) : Nat := (float_to_int x % 256).toNat

/-- The integer nearest to `q`; a value half-way between two integers goes to
the even one. -/
def round_half_even (q : ℚ) : Int :=
  if q - ⌊q⌋ < 1 / 2 then ⌊q⌋
  else if 1 / 2 < q - ⌊q⌋ then ⌊q⌋ + 1
  else if ⌊q⌋ % 2 = 0 then ⌊q⌋ else ⌊q⌋ + 1

/-- Exponent of the unit in the last place of the single-precision (binary32)
format at `x`: 24 significant bits, smallest exponent `-149` (subnormal
values). -/
def f32_ulp_exp (x : ℚ) : Int := max (Int.log 2 |x| - 23) (-149)

/-- The single-precision value nearest to `x`, ties to even: the result of
one `float` operation whose exact result is `x`. Overflow is not modelled: a
result beyond the largest finite value is rounded with an unbounded exponent
where C gives an infinity. -/
def round_f32 (x : ℚ) : ℚ := (round_half_even (x / 2 ^ f32_ulp_exp x) : ℚ) * 2 ^ f32_ulp_exp x

/-- The value `x` is a finite single-precision value of magnitude at most
`2 ^ 126`. -/
def is_f32 (x : ℚ) : Prop := round_f32 x = x ∧ |x| ≤ 2 ^ 126

instance (x : ℚ) : Decidable (is_f32 x) := by
  unfold is_f32; infer_instance

namespace CircleAvatar

/-! ## Constants of `circle-avatar-filter.c` -/

def TFLITE_WIDTH : Nat := 128
def TFLITE_HEIGHT : Nat := 128
def ANCHORS_WIDTH : Nat := 896
def ANCHORS_HEIGHT : Nat := 2
def TFLITE_COORDINATES_NUM : Nat := 16
def HUMAN_THREHOLD : Int := 0
def RELIEVE_SHAKE_BOX_NUM : Nat := 3
def RELIEVE_SHAKE_POS_BIAS : ℚ := 1 / 100
def RELIEVE_SHAKE_SIZE_BIAS : ℚ := 5 / 100
def RELIEVE_SHAKE_POS_SCALE : ℚ := 6
def RELIEVE_SHAKE_SIZE_SCALE : ℚ := 15

/-- The four float fields of `struct box`; the `next` pointer is the ring
index, see `box_next`. -/
structure box where
  face_center_x : ℚ
  face_center_y : ℚ
  face_width : ℚ
  face_height : ℚ
deriving DecidableEq

/-- The fields of `struct circle_avatar_filter_data` that the decoder and the
stabiliser read or write. `box_list` points at one of the three ring nodes
held in `boxes`. `anchors` is `none` while the pointer is NULL. -/
structure circle_avatar_filter_data where
  output_coordinates_data : Nat → ℚ
  output_score_data : Nat → ℚ
  anchors : Option (Nat → ℚ × ℚ)
  box_list : Fin 3
  boxes : Fin 3 → box
  current_box : box
  x_bias : ℚ
  y_bias : ℚ

/-- Successor node in the circular list, `p->next`. -/
def box_next (p : Fin 3) : Fin 3 := p + 1

/-- Row `index` of the anchor table, `filter->anchors[index]`, as the pair
`(anchors[index][0], anchors[index][1])`. Reading through a NULL table is
undefined in C; the model yields `(0, 0)` there. -/
def anchor_at (filter : circle_avatar_filter_data) (index : Nat) : ℚ × ℚ :=
  match filter.anchors with
  | some tbl => tbl index
  | none => (0, 0)

/-- Body of `set_box_value`: all four fields of the target are overwritten. -/
def set_box_value (width height center_x center_y : ℚ) : box :=
  { face_center_x := center_x
    face_center_y := center_y
    face_height := height
    face_width := width }

/-! ## Anchor selection, `calcRect` lines 484-493 -/

/-- One iteration of the selection loop on the locals `(pos, best_score)`,
both of C type `int`: the score is compared with `best_score` converted to
float, and on success `best_score` receives the score converted to `int`. -/
def calcRect_step (score : Nat → ℚ) (st : Int × Int) (i : Nat) : Int × Int :=
  if score i > (st.2 : ℚ) then ((i : Int), float_to_int (score i)) else st

/-- The selection loop `for (int i = 0; i < ANCHORS_WIDTH; ++i)`, started at
`pos = -1`, `best_score = HUMAN_THREHOLD`. -/
def calcRect_loop (score : Nat → ℚ) : Int × Int :=
  for_loop (calcRect_step score) (-1, HUMAN_THREHOLD) ANCHORS_WIDTH

/-- The selection loop cut after its first `n` iterations. -/
def calcRect_loop_upto (score : Nat → ℚ) (n : Nat) : Int × Int :=
  for_loop (calcRect_step score) (-1, HUMAN_THREHOLD) n

/-! ## Temporal stabiliser, `calcRectInner` -/

/-- Locals of the history scan of `calcRectInner` (lines 432-437). -/
structure history_acc where
  p_box : Fin 3
  old_face_center_x : ℚ
  old_face_center_y : ℚ
  old_face_width : ℚ
  old_face_height : ℚ
  valid_num : Nat

/-- Test of line 440-441 on one history node. -/
def box_positive (b : box) : Prop :=
  b.face_width > 0 ∧ b.face_height > 0 ∧ b.face_center_x > 0 ∧ b.face_center_y > 0

instance (b : box) : Decidable (box_positive b) := by
  unfold box_positive; infer_instance

/-- One iteration of the scan (lines 439-447): step to the next node and add
it to the sums when all four of its fields are positive. Each `+=` is one
single-precision addition. -/
def history_step (boxes : Fin 3 → box) (a : history_acc) (_i : Nat) : history_acc :=
  let p := box_next a.p_box
  if box_positive (boxes p) then
    { p_box := p
      old_face_center_x := round_f32 (a.old_face_center_x + (boxes p).face_center_x)
      old_face_center_y := round_f32 (a.old_face_center_y + (boxes p).face_center_y)
      old_face_width := round_f32 (a.old_face_width + (boxes p).face_width)
      old_face_height := round_f32 (a.old_face_height + (boxes p).face_height)
      valid_num := a.valid_num + 1 }
  else { a with p_box := p }

/-- The scan `for (int i = 0; i < RELIEVE_SHAKE_BOX_NUM; ++i)`. -/
def history_scan (filter : circle_avatar_filter_data) : history_acc :=
  for_loop (history_step filter.boxes)
    { p_box := filter.box_list
      old_face_center_x := 0
      old_face_center_y := 0
      old_face_width := 0
      old_face_height := 0
      valid_num := 0 }
    RELIEVE_SHAKE_BOX_NUM

/-- The box decoded for anchor `index` (lines 426-431). -/
def decoded_box (filter : circle_avatar_filter_data) (index : Nat) : box :=
  let current_face_center_x :=
    filter.output_coordinates_data (index * TFLITE_COORDINATES_NUM)
      + (anchor_at filter index).1 + filter.x_bias
  let current_face_center_y :=
    filter.output_coordinates_data (index * TFLITE_COORDINATES_NUM + 1)
      + (anchor_at filter index).2 + filter.y_bias
  let current_face_width :=
    filter.output_coordinates_data (index * TFLITE_COORDINATES_NUM + 2)
  let current_face_height :=
    filter.output_coordinates_data (index * TFLITE_COORDINATES_NUM + 3)
  set_box_value current_face_width current_face_height current_face_center_x
    current_face_center_y

/-- The four guarded updates of `current_box` (lines 463-478), given the
history means. Each difference `dx`, each quotient `dx / scale` and each `+=`
is one single-precision operation. The bounds `128 * 0.01` and `128 * 0.05`
are `double` products in C, less than `4e-16` above 1.28 and 6.4; no
single-precision value lies in between (`shake_test_double`), so the tests on
the single-precision `dx` are the tests against 1.28 and 6.4. -/
def shake_update (cur : box) (old_x old_y old_w old_h : ℚ) : box :=
  let dx := round_f32 (old_x - cur.face_center_x)
  let dy := round_f32 (old_y - cur.face_center_y)
  let dw := round_f32 (old_w - cur.face_width)
  let dh := round_f32 (old_h - cur.face_height)
  let c1 : box :=
    if dx > TFLITE_WIDTH * RELIEVE_SHAKE_POS_BIAS ∨ dx < -(TFLITE_WIDTH : ℚ) * RELIEVE_SHAKE_POS_BIAS
    then
      { cur with
        face_center_x := round_f32 (cur.face_center_x + round_f32 (dx / RELIEVE_SHAKE_POS_SCALE)) }
    else cur
  let c2 : box :=
    if dy > TFLITE_HEIGHT * RELIEVE_SHAKE_POS_BIAS ∨ dy < -(TFLITE_HEIGHT : ℚ) * RELIEVE_SHAKE_POS_BIAS
    then
      { c1 with
        face_center_y := round_f32 (c1.face_center_y + round_f32 (dy / RELIEVE_SHAKE_POS_SCALE)) }
    else c1
  let c3 : box :=
    if dw > TFLITE_WIDTH * RELIEVE_SHAKE_SIZE_BIAS ∨ dw < -(TFLITE_WIDTH : ℚ) * RELIEVE_SHAKE_SIZE_BIAS
    then
      { c2 with
        face_width := round_f32 (c2.face_width + round_f32 (dw / RELIEVE_SHAKE_SIZE_SCALE)) }
    else c2
  if dh > TFLITE_HEIGHT * RELIEVE_SHAKE_SIZE_BIAS ∨ dh < -(TFLITE_HEIGHT : ℚ) * RELIEVE_SHAKE_SIZE_BIAS
  then
    { c3 with
      face_height := round_f32 (c3.face_height + round_f32 (dh / RELIEVE_SHAKE_SIZE_SCALE)) }
  else c3

/-- The deadband step in the words of the specification, in single-precision
arithmetic: with `delta = ref - old`, the value is unchanged when `|delta|`
does not exceed `bias`, and moves by `delta / scale` toward `ref` otherwise. -/
def deadband (bias scale old ref : ℚ) : ℚ :=
  if |round_f32 (ref - old)| ≤ bias then old
  else round_f32 (old + round_f32 (round_f32 (ref - old) / scale))

/-- The single-precision mean of three values added in the order given. -/
def mean3 (a b c : ℚ) : ℚ := round_f32 (round_f32 (round_f32 (a + b) + c) / 3)

/-- The reference of the specification: the field-wise mean of the three
history nodes in single-precision arithmetic, the nodes taken in the order of
the ring from the node after `p`. -/
def history_mean (boxes : Fin 3 → box) (p : Fin 3) : box :=
  { face_center_x :=
      mean3 (boxes (box_next p)).face_center_x (boxes (box_next (box_next p))).face_center_x
        (boxes p).face_center_x
    face_center_y :=
      mean3 (boxes (box_next p)).face_center_y (boxes (box_next (box_next p))).face_center_y
        (boxes p).face_center_y
    face_width :=
      mean3 (boxes (box_next p)).face_width (boxes (box_next (box_next p))).face_width
        (boxes p).face_width
    face_height :=
      mean3 (boxes (box_next p)).face_height (boxes (box_next (box_next p))).face_height
        (boxes p).face_height }

/-- The four fields of the box are finite single-precision values of magnitude
at most `2 ^ 126`; for such boxes no sum, difference or quotient of the
stabiliser overflows. -/
def box_is_f32 (b : box) : Prop :=
  is_f32 b.face_center_x ∧ is_f32 b.face_center_y ∧ is_f32 b.face_width ∧ is_f32 b.face_height

instance (b : box) : Decidable (box_is_f32 b) := by
  unfold box_is_f32; infer_instance

/-- The function `calcRectInner(filter, index)`: scan the ring, overwrite the
node `box_list` points at with the decoded box, then either copy the decoded
box to `current_box` (fewer than three positive nodes) or step `current_box`
toward the history mean. The division of a sum by `valid_num` is one
single-precision division. -/
def calcRectInner (filter : circle_avatar_filter_data) (index : Nat) :
    circle_avatar_filter_data :=
  let a := history_scan filter
  let filter1 : circle_avatar_filter_data :=
    { filter with boxes := Function.update filter.boxes filter.box_list (decoded_box filter index) }
  if a.valid_num ≠ RELIEVE_SHAKE_BOX_NUM then
    { filter1 with current_box := decoded_box filter index }
  else if a.old_face_center_x ≠ 0 ∨ a.old_face_center_y ≠ 0 ∨ a.old_face_width ≠ 0
      ∨ a.old_face_height ≠ 0 then
    { filter1 with
      current_box :=
        shake_update filter1.current_box
          (round_f32 (a.old_face_center_x / a.valid_num))
          (round_f32 (a.old_face_center_y / a.valid_num))
          (round_f32 (a.old_face_width / a.valid_num))
          (round_f32 (a.old_face_height / a.valid_num)) }
  else filter1

/-- The function `calcRect(filter)`: advance `box_list`, select an anchor, and
decode it when `pos > 0` (then `pos` is passed as the index); otherwise write
the invalid box `(-1, -1, -1, -1)` into the node and into `current_box`. -/
def calcRect (filter : circle_avatar_filter_data) : circle_avatar_filter_data :=
  let filter1 : circle_avatar_filter_data :=
    { filter with box_list := box_next filter.box_list }
  let pos := (calcRect_loop filter1.output_score_data).1
  if pos > 0 then calcRectInner filter1 pos.toNat
  else
    { filter1 with
      boxes := Function.update filter1.boxes filter1.box_list (set_box_value (-1) (-1) (-1) (-1))
      current_box := set_box_value (-1) (-1) (-1) (-1) }

/-! ## Anchor grid, `generateAnchors` -/

/-- The table being filled and the local `pos`. -/
structure anchor_cursor where
  anchors : Nat → ℚ × ℚ
  pos : Nat

/-- Innermost body (lines 116-118): `anchors[pos][0] = anchorX`,
`anchors[pos][1] = anchorY`, `pos++`. -/
def generateAnchors_write (st : anchor_cursor) (anchorX anchorY : ℚ) : anchor_cursor :=
  { anchors := Function.update st.anchors st.pos (anchorX, anchorY)
    pos := st.pos + 1 }

/-- The four nested loops of `generateAnchors` (lines 105-122) on a table. -/
def generateAnchors_loops (tbl : Nat → ℚ × ℚ) : anchor_cursor :=
  let strides : List Nat := [8, 16]
  let anchors : List Nat := [2, 6]
  for_loop
    (fun (st : anchor_cursor) (i : Nat) =>
      let stride : Nat := strides.getD i 0
      let gridRows := (TFLITE_HEIGHT + stride - 1) / stride
      let gridCols := (TFLITE_WIDTH + stride - 1) / stride
      let anchorsNum := anchors.getD i 0
      for_loop
        (fun (st : anchor_cursor) (gridY : Nat) =>
          let anchorY : ℚ := (stride : ℚ) * ((gridY : ℚ) + 1 / 2)
          for_loop
            (fun (st : anchor_cursor) (gridX : Nat) =>
              let anchorX : ℚ := (stride : ℚ) * ((gridX : ℚ) + 1 / 2)
              for_loop
                (fun (st : anchor_cursor) (_n : Nat) => generateAnchors_write st anchorX anchorY)
                st anchorsNum)
            st gridCols)
        st gridRows)
    { anchors := tbl, pos := 0 } strides.length

/-- The function `generateAnchors(filter)`: allocate a zeroed table when the
pointer is NULL, then fill it. -/
def generateAnchors (filter : circle_avatar_filter_data) : circle_avatar_filter_data :=
  let tbl : Nat → ℚ × ℚ :=
    match filter.anchors with
    | some t => t
    | none => fun _ => (0, 0)
  { filter with anchors := some (generateAnchors_loops tbl).anchors }

/-- The entries for one stride, following the wording of the specification:
`ceil(128 / s)` grid rows `gy`, then as many grid columns `gx`, then `a`
anchors per cell, each with centre `((gx + 0.5) * s, (gy + 0.5) * s)`. -/
def reference_grid (s a : Nat) : List (ℚ × ℚ) :=
  (List.range ⌈(128 : ℚ) / s⌉₊).flatMap fun gy =>
    (List.range ⌈(128 : ℚ) / s⌉₊).flatMap fun gx =>
      List.replicate a (((gx : ℚ) + 1 / 2) * s, ((gy : ℚ) + 1 / 2) * s)

/-- The reference list of the specification: stride 8 with 2 anchors per
cell, then stride 16 with 6 anchors per cell. -/
def reference_anchors : List (ℚ × ℚ) := reference_grid 8 2 ++ reference_grid 16 6

/-- Writing a list of entries one after the other from the cursor on. -/
def write_all (st : anchor_cursor) (vs : List (ℚ × ℚ)) : anchor_cursor :=
  vs.foldl (fun st v => generateAnchors_write st v.1 v.2) st

end CircleAvatar

namespace BackgroundMask

/-! ## Constants of `background-mask.c` -/

def TFLITE_WIDTH : Nat := 256
def TFLITE_HEIGHT : Nat := 256

/-! ## Mask threshold, `background_mask_video` lines 293-299 -/

/-- One iteration of the threshold loop: `texturedata[i]` becomes 0 when the
probability is below `mask_value`, else `(uint8_t)(255.0f * probability)`. -/
def mask_step (output_probability : Nat → ℚ) (mask_value : ℚ) (texturedata : Nat → Nat)
    (i : Nat) : Nat → Nat :=
  if output_probability i < mask_value then Function.update texturedata i 0
  else Function.update texturedata i (float_to_uint8 (255 * output_probability i))

/-- The loop `for (int i = 0; i < TFLITE_HEIGHT * TFLITE_WIDTH; ++i)`. -/
def mask_loop (output_probability : Nat → ℚ) (mask_value : ℚ) (texturedata : Nat → Nat) :
    Nat → Nat :=
  for_loop (mask_step output_probability mask_value) texturedata (TFLITE_HEIGHT * TFLITE_WIDTH)

/-! ## Horizontal mirror, `mirror_inversion` -/

/-- Modelled from the spec: `enum video_format` is declared outside these
sources; the code distinguishes the UYVY case from every other format. -/
inductive video_format where
  | VIDEO_FORMAT_UYVY
  | other (tag : Nat)
deriving DecidableEq

/-- Modelled from the spec: `struct obs_source_frame` is declared outside
these sources; these are the fields `mirror_inversion` uses. `data0` gives the
bytes of plane 0 (`frame->data[0]`) by byte offset; the 32-bit word `k` of the
plane is the bytes `4k .. 4k+3`. The `uint32_t` offsets of the code are
computed in `Nat`: they do not wrap for a plane of fewer than `2^32` words. -/
structure obs_source_frame where
  width : Nat
  height : Nat
  format : video_format
  data0 : Nat → Nat

/-- Exchange of the words `p` and `q` (lines 341-343). -/
def swap_words (d : Nat → Nat) (p q : Nat) : Nat → Nat :=
  fun a =>
    if a / 4 = p then d (4 * q + a % 4)
    else if a / 4 = q then d (4 * p + a % 4)
    else d a

/-- Exchange of the bytes 1 and 3 of word `w` (lines 345-347, 351-353). -/
def swap_bytes_1_3 (d : Nat → Nat) (w : Nat) : Nat → Nat :=
  fun a =>
    if a = 4 * w + 1 then d (4 * w + 3)
    else if a = 4 * w + 3 then d (4 * w + 1)
    else d a

/-- Body of the inner loop (lines 339-354) for row `i` and column `j`. -/
def mirror_step (width i : Nat) (d : Nat → Nat) (j : Nat) : Nat → Nat :=
  let p := width / 2 * i + j
  let q := width / 2 * i + width / 2 - 1 - j
  let d1 := swap_words d p q
  let d2 := swap_bytes_1_3 d1 p
  if p ≠ q then swap_bytes_1_3 d2 q else d2

/-- The two loops of the UYVY case (lines 337-356) on the bytes of plane 0. -/
def mirror_uyvy (width height : Nat) (d : Nat → Nat) : Nat → Nat :=
  for_loop (fun (d : Nat → Nat) (i : Nat) => for_loop (mirror_step width i) d (width / 4)) d
    height

/-- The function `mirror_inversion(frame)`. -/
def mirror_inversion (frame : obs_source_frame) : obs_source_frame :=
  if frame.width = 0 then frame
  else
    match frame.format with
    | video_format.VIDEO_FORMAT_UYVY =>
      { frame with data0 := mirror_uyvy frame.width frame.height frame.data0 }
    | video_format.other _ => frame

/-- Byte offset in a packed UYVY row-major plane of the luma sample of pixel
`j` of row `i` (bytes `U Y0 V Y1` per two pixels). -/
def luma_offset (width i j : Nat) : Nat := 4 * (width / 2 * i + j / 2) + 1 + 2 * (j % 2)

end BackgroundMask

/-! # Example inputs -/

namespace CircleAvatar

/-- A ring of three nodes as `circle_avatar_video` first builds it (lines
373-386): the zeroed head node followed by two nodes set to `-1, -1, -1, 1`. -/
def fresh_boxes : Fin 3 → box := fun k =>
  if k = 0 then { face_center_x := 0, face_center_y := 0, face_width := 0, face_height := 0 }
  else { face_center_x := -1, face_center_y := -1, face_width := -1, face_height := 1 }

/-- A filter right after creation and ring construction, with the given
scores and coordinates and a previous output box `(40, 40, 20, 20)`. -/
def example_filter (score coord : Nat → ℚ) : circle_avatar_filter_data :=
  { output_coordinates_data := coord
    output_score_data := score
    anchors := some (generateAnchors_loops fun _ => (0, 0)).anchors
    box_list := 0
    boxes := fresh_boxes
    current_box := { face_center_x := 40, face_center_y := 40, face_width := 20, face_height := 20 }
    x_bias := 0
    y_bias := 0 }

/-- A filter in the tracking state: three history nodes `(50, 60, 30, 30)`
and a previous output box `(40, 59.5, 20, 29)`. -/
def tracking_filter (score coord : Nat → ℚ) : circle_avatar_filter_data :=
  { output_coordinates_data := coord
    output_score_data := score
    anchors := some (generateAnchors_loops fun _ => (0, 0)).anchors
    box_list := 1
    boxes := fun _ =>
      { face_center_x := 50, face_center_y := 60, face_width := 30, face_height := 30 }
    current_box :=
      { face_center_x := 40, face_center_y := 119 / 2, face_width := 20, face_height := 29 }
    x_bias := 0
    y_bias := 0 }

/-- A filter in the tracking state where single-precision rounding decides the
centre x: three history nodes `(5592407 / 2^16, 60, 30, 45)` and a previous
output box `(11017041 / 2^17, 48, 25, 30)`. The exact mean of the centre x is
more than 1.28 above the previous value; the single-precision mean is not. -/
def rounding_filter (score coord : Nat → ℚ) : circle_avatar_filter_data :=
  { output_coordinates_data := coord
    output_score_data := score
    anchors := some (generateAnchors_loops fun _ => (0, 0)).anchors
    box_list := 1
    boxes := fun _ =>
      { face_center_x := 5592407 / 65536, face_center_y := 60, face_width := 30,
        face_height := 45 }
    current_box :=
      { face_center_x := 11017041 / 131072, face_center_y := 48, face_width := 25,
        face_height := 30 }
    x_bias := 0
    y_bias := 0 }

/-- Scores with anchor 0 the only one above the threshold. -/
def scores_anchor0 : Nat → ℚ := fun i => if i = 0 then 1 else 0

/-- Scores with anchors 1 and 2 tied at the greatest value 1.5. -/
def scores_tie : Nat → ℚ := fun i => if i = 1 then 3 / 2 else if i = 2 then 3 / 2 else 0

/-- Scores with the greatest value 1.7 at anchor 1 and 1.5 at anchor 2. -/
def scores_later_smaller : Nat → ℚ :=
  fun i => if i = 1 then 17 / 10 else if i = 2 then 3 / 2 else 0

/-- Scores all equal to the threshold. -/
def scores_zero : Nat → ℚ := fun _ => 0

/-- Coordinate rows `(1, 2, 30, 40, 0, ..)` for every anchor. -/
def coords_example : Nat → ℚ := fun k =>
  if k % 16 = 0 then 1 else if k % 16 = 1 then 2 else if k % 16 = 2 then 30
  else if k % 16 = 3 then 40 else 0

end CircleAvatar

/-! # Auxiliary definitions for the mirror, and example frames -/

namespace BackgroundMask

/-- Position inside a word after the exchange of bytes 1 and 3. -/
def swap13 (b : Nat) : Nat := if b = 1 then 3 else if b = 3 then 1 else b

/-- The byte offset whose old content one column step with words `p`, `q`
leaves at offset `a`. -/
def step_src (p q a : Nat) : Nat :=
  if a / 4 = p then 4 * q + swap13 (a % 4)
  else if a / 4 = q then 4 * p + swap13 (a % 4)
  else a

/-- The byte offset whose old content the first `m` column steps leave at
offset `a`, for a row of `n` words starting at word `base`. -/
def row_src (base n m a : Nat) : Nat :=
  if (base ≤ a / 4 ∧ a / 4 < base + m) ∨ (base + n - m ≤ a / 4 ∧ a / 4 < base + n) then
    4 * (base + (base + n - 1 - a / 4)) + swap13 (a % 4)
  else a

/-- The byte offset whose old content the first `h` rows of the mirror leave
at offset `a`. -/
def frame_src (n m : Nat) : Nat → Nat → Nat
  | 0, a => a
  | h + 1, a => frame_src n m h (row_src (n * h) n m a)

/-- One UYVY row of six pixels whose byte at offset `a` is `a`:
`U0 Y0 V0 Y1 | U1 Y2 V1 Y3 | U2 Y4 V2 Y5 = 0 .. 11`. -/
def uyvy_row6 : obs_source_frame :=
  { width := 6, height := 1, format := video_format.VIDEO_FORMAT_UYVY, data0 := fun a => a % 256 }

/-- One UYVY row of two pixels, bytes `U Y0 V Y1 = 0 .. 3`. -/
def uyvy_row2 : obs_source_frame :=
  { width := 2, height := 1, format := video_format.VIDEO_FORMAT_UYVY, data0 := fun a => a % 256 }

/-- A probability map with the same value at every pixel. -/
def prob_const (x : ℚ) : Nat → ℚ := fun _ => x

/-- A zeroed texture buffer, as `bzalloc` returns it. -/
def texture_zero : Nat → Nat := fun _ => 0

end BackgroundMask

/-! # Per-frame entry points -/

namespace BackgroundMask

/-- Modelled from the spec: `struct video_scale_info` is declared outside
these sources. It is the source description a scaler is created with
(`initializeScalers`): the frame's format and the width and height recorded in
the filter. The destination description is fixed (BGR3 at the model size). -/
structure video_scale_info where
  format : video_format
  width : Nat
  height : Nat
deriving DecidableEq

/-- The two external collaborators of the mask filter, taken as parameters.
`video_scaler_scale info frame old` is the content of the `rgb_int` buffer
after `video_scaler_scale(scaler, &rgb_int, &rgb_linesize, frame->data,
frame->linesize)` for a scaler created from `info`, `old` being the content
before the call; the frame is passed as `const` input. `infer rgb_f` is the
probability map copied out after `TfLiteInterpreterInvoke` on the tensor. -/
structure mask_collaborators where
  video_scaler_scale : video_scale_info → obs_source_frame → (Nat → Nat) → (Nat → Nat)
  infer : (Nat → ℚ) → (Nat → ℚ)

/-- The fields of `struct background_mask_filter_data` that
`background_mask_video` reads or writes for the tensor and the mask. A buffer
pointer is `none` while NULL. The blur parameters set by
`calcSmoothParameters` are not part of the model. -/
structure background_mask_filter_data where
  frame_width : Nat
  frame_height : Nat
  scalerToBGR : Option video_scale_info
  rgb_linesize : Nat
  rgb_int : Option (Nat → Nat)
  rgb_f : Option (Nat → ℚ)
  output_probability : Option (Nat → ℚ)
  texturedata : Option (Nat → Nat)
  mask_value : ℚ

/-- Lines 244-252: a change of frame size destroys the scaler and records the
new size. -/
def update_dimensions (filter : background_mask_filter_data) (frame : obs_source_frame) :
    background_mask_filter_data :=
  if filter.frame_width ≠ frame.width ∨ filter.frame_height ≠ frame.height then
    { filter with
      scalerToBGR := none
      frame_width := frame.width
      frame_height := frame.height }
  else filter

/-- Lines 259-264 and `convertFrameToBGR`: allocate a zeroed `rgb_int` when
NULL, create the scaler when NULL, and scale the frame into `rgb_int`. -/
def convertFrameToBGR (c : mask_collaborators) (frame : obs_source_frame)
    (filter : background_mask_filter_data) : background_mask_filter_data :=
  let rgb_int : Nat → Nat := filter.rgb_int.getD (fun _ => 0)
  let info : video_scale_info :=
    filter.scalerToBGR.getD
      { format := frame.format, width := filter.frame_width, height := filter.frame_height }
  { filter with
    scalerToBGR := some info
    rgb_int := some (c.video_scaler_scale info frame rgb_int) }

/-- Body of the first tensor loop (lines 273-277) for row `i`, column `j`. -/
def tensor_step1 (rgb_linesize : Nat) (rgb_int : Nat → Nat) (i : Nat) (rgb_f : Nat → ℚ)
    (j : Nat) : Nat → ℚ :=
  let pos := rgb_linesize * i + 3 * j
  let pos_f := rgb_linesize * i + 3 * (TFLITE_WIDTH - 1 - j)
  let f1 := Function.update rgb_f (pos_f + 2) ((rgb_int pos : ℚ) / 255)
  let f2 := Function.update f1 (pos_f + 1) ((rgb_int (pos + 1) : ℚ) / 255)
  Function.update f2 pos_f ((rgb_int (pos + 2) : ℚ) / 255)

/-- The first tensor loop (lines 271-279): rows `i < TFLITE_HEIGHT`, columns
`j <= TFLITE_WIDTH / 2`. -/
def tensor_pass1 (rgb_linesize : Nat) (rgb_int : Nat → Nat) (rgb_f : Nat → ℚ) : Nat → ℚ :=
  for_loop
    (fun (t : Nat → ℚ) (i : Nat) =>
      for_loop (tensor_step1 rgb_linesize rgb_int i) t (TFLITE_WIDTH / 2 + 1))
    rgb_f TFLITE_HEIGHT

/-- Body of the second tensor loop (lines 286-288) for row `i`, column `j`. -/
def tensor_step2 (rgb_linesize : Nat) (rgb_int : Nat → Nat) (i : Nat) (rgb_f : Nat → ℚ)
    (j : Nat) : Nat → ℚ :=
  let pos := rgb_linesize * i + 3 * j
  let f1 := Function.update rgb_f (pos + 1) ((rgb_int (pos + 1) : ℚ) / 255)
  Function.update f1 pos ((rgb_int (pos + 2) : ℚ) / 255)

/-- The second tensor loop (lines 284-290): rows `i < TFLITE_HEIGHT`, columns
`j <= TFLITE_WIDTH / 2`. -/
def tensor_pass2 (rgb_linesize : Nat) (rgb_int : Nat → Nat) (rgb_f : Nat → ℚ) : Nat → ℚ :=
  for_loop
    (fun (t : Nat → ℚ) (i : Nat) =>
      for_loop (tensor_step2 rgb_linesize rgb_int i) t (TFLITE_WIDTH / 2 + 1))
    rgb_f TFLITE_HEIGHT

/-- The state when the first tensor loop has run (lines 244-279). -/
def after_pass1 (c : mask_collaborators) (filter : background_mask_filter_data)
    (frame : obs_source_frame) : background_mask_filter_data :=
  let f := convertFrameToBGR c frame (update_dimensions filter frame)
  { f with
    rgb_f :=
      some (tensor_pass1 f.rgb_linesize (f.rgb_int.getD fun _ => 0) (f.rgb_f.getD fun _ => 0)) }

/-- The state when the second tensor loop has run (lines 281-290): the frame
is mirrored in place, scaled again, and the loop runs on the new bytes. -/
def after_pass2 (c : mask_collaborators) (filter : background_mask_filter_data)
    (frame : obs_source_frame) : background_mask_filter_data :=
  let f := convertFrameToBGR c (mirror_inversion frame) (after_pass1 c filter frame)
  { f with
    rgb_f :=
      some (tensor_pass2 f.rgb_linesize (f.rgb_int.getD fun _ => 0) (f.rgb_f.getD fun _ => 0)) }

/-- The function `background_mask_video(data, frame)`: the new filter state
and the frame object it returns, which is the frame it was given after the
in-place `mirror_inversion`. -/
def background_mask_video (c : mask_collaborators) (filter : background_mask_filter_data)
    (frame : obs_source_frame) : background_mask_filter_data × obs_source_frame :=
  let f := after_pass2 c filter frame
  let output_probability : Nat → ℚ := c.infer (f.rgb_f.getD fun _ => 0)
  let texturedata : Nat → Nat := f.texturedata.getD fun _ => 0
  ({ f with
      output_probability := some output_probability
      texturedata := some (mask_loop output_probability f.mask_value texturedata) },
    mirror_inversion frame)

end BackgroundMask

namespace CircleAvatar

open BackgroundMask (obs_source_frame video_format video_scale_info)

/-- The two external collaborators of the face-box filter, taken as
parameters. `video_scaler_scale` is as for the mask filter; `infer rgb_f` is
the pair (coordinate tensor, score tensor) copied out after
`TfLiteInterpreterInvoke` on the tensor. -/
structure face_collaborators where
  video_scaler_scale : video_scale_info → obs_source_frame → (Nat → Nat) → (Nat → Nat)
  infer : (Nat → ℚ) → (Nat → ℚ) × (Nat → ℚ)

/-- The state of one face-box filter across frames: the decoder fields of
`circle_avatar_filter_data` together with the lazily allocated buffers and the
published vectors. `ring_built` says that `box_list` is not NULL (the ring
fields of `decoder` mean nothing before). A buffer pointer is `none` while
NULL. -/
structure circle_avatar_video_data where
  decoder : circle_avatar_filter_data
  ring_built : Bool
  frame_width : Nat
  frame_height : Nat
  scalerToBGR : Option video_scale_info
  rgb_int : Option (Nat → Nat)
  rgb_f : Option (Nat → ℚ)
  faceCenter : Option (ℚ × ℚ)
  faceSize : Option (ℚ × ℚ)
  face_size_scale : ℚ

/-- Lines 338-346: a change of frame size destroys the scaler and records the
new size. -/
def update_dimensions (filter : circle_avatar_video_data) (frame : obs_source_frame) :
    circle_avatar_video_data :=
  if filter.frame_width ≠ frame.width ∨ filter.frame_height ≠ frame.height then
    { filter with
      scalerToBGR := none
      frame_width := frame.width
      frame_height := frame.height }
  else filter

/-- Lines 353-358 and `convertFrameToBGR`: allocate a zeroed `rgb_int` when
NULL, create the scaler when NULL, and scale the frame into `rgb_int`. -/
def convertFrameToBGR (c : face_collaborators) (frame : obs_source_frame)
    (filter : circle_avatar_video_data) : circle_avatar_video_data :=
  let rgb_int : Nat → Nat := filter.rgb_int.getD (fun _ => 0)
  let info : video_scale_info :=
    filter.scalerToBGR.getD
      { format := frame.format, width := filter.frame_width, height := filter.frame_height }
  { filter with
    scalerToBGR := some info
    rgb_int := some (c.video_scaler_scale info frame rgb_int) }

/-- Body of the normalisation loop (lines 364-366) for pixel `i`. -/
def normalize_step (rgb_int : Nat → Nat) (rgb_f : Nat → ℚ) (i : Nat) : Nat → ℚ :=
  let f1 := Function.update rgb_f (i * 3 + 2) ((rgb_int (i * 3) : ℚ) / 255)
  let f2 := Function.update f1 (i * 3 + 1) ((rgb_int (i * 3 + 1) : ℚ) / 255)
  Function.update f2 (i * 3) ((rgb_int (i * 3 + 2) : ℚ) / 255)

/-- The normalisation loop `for (i = 0; i < TFLITE_HEIGHT * TFLITE_WIDTH; ++i)`
(lines 363-368). -/
def normalize_loop (rgb_int : Nat → Nat) (rgb_f : Nat → ℚ) : Nat → ℚ :=
  for_loop (normalize_step rgb_int) rgb_f (TFLITE_HEIGHT * TFLITE_WIDTH)

/-- Lines 359-368: allocate a zeroed `rgb_f` when NULL and fill it from
`rgb_int`. -/
def normalize_tensor (filter : circle_avatar_video_data) : circle_avatar_video_data :=
  { filter with
    rgb_f := some (normalize_loop (filter.rgb_int.getD fun _ => 0) (filter.rgb_f.getD fun _ => 0)) }

/-- Lines 369-387: generate the anchors when the table is NULL and build the
ring when `box_list` is NULL: a zeroed head node followed by two nodes set to
`-1, -1, -1, 1`, closed into a cycle, `box_list` pointing at the head. -/
def prepare_decoder (filter : circle_avatar_video_data) : circle_avatar_video_data :=
  let d : circle_avatar_filter_data :=
    match filter.decoder.anchors with
    | some _ => filter.decoder
    | none => generateAnchors filter.decoder
  if filter.ring_built then { filter with decoder := d }
  else { filter with decoder := { d with box_list := 0, boxes := fresh_boxes }, ring_built := true }

/-- The function `tflite_get_out(filter)`: run the inference on `rgb_f` and
copy the two output tensors into the filter. -/
def tflite_get_out (c : face_collaborators) (filter : circle_avatar_video_data) :
    circle_avatar_video_data :=
  { filter with
    decoder :=
      { filter.decoder with
        output_coordinates_data := (c.infer (filter.rgb_f.getD fun _ => 0)).1
        output_score_data := (c.infer (filter.rgb_f.getD fun _ => 0)).2 } }

/-- Lines 397-413: the published centre and size for the output box `cur`.
The divisions by the frame width are exact; for a frame of width 0 C divides
by zero, which the model's total division does not reproduce. -/
def publish_face (cur : box) (face_size_scale : ℚ) (frame : obs_source_frame) :
    (ℚ × ℚ) × (ℚ × ℚ) :=
  let center_x : ℚ := cur.face_center_x / TFLITE_WIDTH
  let center_y : ℚ := cur.face_center_y / TFLITE_HEIGHT
  let size_x : ℚ := cur.face_width / TFLITE_WIDTH
  let size_y : ℚ := cur.face_height / TFLITE_HEIGHT
  if center_x < 0 ∨ center_y < 0 ∨ size_x ≤ 0 ∨ size_y ≤ 0 then
    ((1 / 2, 1 / 2), ((frame.height : ℚ) / (frame.width : ℚ), (frame.height : ℚ) / (frame.width : ℚ)))
  else ((center_x, center_y), (size_x * face_size_scale, size_y * face_size_scale))

/-- The state right before the call of `calcRect` (lines 338-388). -/
def before_calcRect (c : face_collaborators) (filter : circle_avatar_video_data)
    (frame : obs_source_frame) : circle_avatar_video_data :=
  tflite_get_out c
    (prepare_decoder (normalize_tensor (convertFrameToBGR c frame (update_dimensions filter frame))))

/-- The function `circle_avatar_video(data, frame)`: the new filter state and
the frame object it returns. -/
def circle_avatar_video (c : face_collaborators) (filter : circle_avatar_video_data)
    (frame : obs_source_frame) : circle_avatar_video_data × obs_source_frame :=
  let f := before_calcRect c filter frame
  let d := calcRect f.decoder
  ({ f with
      decoder := d
      faceCenter := some (publish_face d.current_box f.face_size_scale frame).1
      faceSize := some (publish_face d.current_box f.face_size_scale frame).2 },
    frame)

/-- The box `calcRect` decodes from the output tensors held in the filter: the
box of the selected anchor when `pos > 0`, the invalid box otherwise. -/
def frame_decode (filter : circle_avatar_filter_data) : box :=
  if (calcRect_loop filter.output_score_data).1 > 0 then
    decoded_box filter (calcRect_loop filter.output_score_data).1.toNat
  else set_box_value (-1) (-1) (-1) (-1)

/-- The ring the next frame starts from: the ring of the filter when it is
built, else the ring `circle_avatar_video` builds first (lines 372-387). -/
def ring_of (filter : circle_avatar_video_data) : Fin 3 × (Fin 3 → box) :=
  if filter.ring_built then (filter.decoder.box_list, filter.decoder.boxes) else (0, fresh_boxes)

/-- The filter state after the first `n` frames of a sequence. -/
def circle_avatar_run (c : face_collaborators) (frames : Nat → obs_source_frame)
    (init : circle_avatar_video_data) (n : Nat) : circle_avatar_video_data :=
  for_loop (fun (s : circle_avatar_video_data) (k : Nat) => (circle_avatar_video c s (frames k)).1)
    init n

end CircleAvatar

/-! # Example inputs for the entry points -/

namespace BackgroundMask

/-- A byte buffer holding 255 everywhere. -/
def bytes_full : Nat → Nat := fun _ => 255

/-- A byte buffer holding 0 everywhere. -/
def bytes_zero : Nat → Nat := fun _ => 0

/-- A zeroed tensor, as `bzalloc` returns it. -/
def tensor_zero : Nat → ℚ := fun _ => 0

/-- A frame of width 0 and height 0. -/
def frame_empty : obs_source_frame :=
  { width := 0, height := 0, format := video_format.other 0, data0 := fun _ => 0 }

/-- Collaborators for the examples: a scaler that fills the buffer with 255
and an inference that returns probability 0.5 everywhere. -/
def mask_collaborators_example : mask_collaborators :=
  { video_scaler_scale := fun _ _ _ => bytes_full
    infer := fun _ => prob_const (1 / 2) }

/-- A mask filter as `background_mask_create` leaves it, with cutoff 0.8: all
buffers NULL, `rgb_linesize = TFLITE_WIDTH * 3`. -/
def mask_filter_created : background_mask_filter_data :=
  { frame_width := 0
    frame_height := 0
    scalerToBGR := none
    rgb_linesize := 768
    rgb_int := none
    rgb_f := none
    output_probability := none
    texturedata := none
    mask_value := 8 / 10 }

/-- A texture buffer holding 255 everywhere. -/
def texture_full : Nat → Nat := fun _ => 255

/-- A mask filter that has already processed frames of 640 by 480: its
buffers exist, the texture holds 255 everywhere, the cutoff is 0.8. -/
def mask_filter_running : background_mask_filter_data :=
  { frame_width := 640
    frame_height := 480
    scalerToBGR := none
    rgb_linesize := 768
    rgb_int := some bytes_zero
    rgb_f := some tensor_zero
    output_probability := some (prob_const 1)
    texturedata := some texture_full
    mask_value := 8 / 10 }

end BackgroundMask

namespace CircleAvatar

open BackgroundMask (obs_source_frame video_format video_scale_info)

/-- Collaborators for the examples: a scaler that writes the byte `k % 256`
at offset `k` and an inference whose scores are all 0 (no detection). -/
def face_collaborators_example : face_collaborators :=
  { video_scaler_scale := fun _ _ _ k => k % 256
    infer := fun _ => (coords_example, scores_zero) }

/-- A face-box filter in the tracking state of `tracking_filter` that has
published the centre and size of its output box `(40, 59.5, 20, 29)` with
`face_size_scale = 2` for frames of 640 by 480. -/
def face_state_tracking : circle_avatar_video_data :=
  { decoder := tracking_filter scores_tie coords_example
    ring_built := true
    frame_width := 640
    frame_height := 480
    scalerToBGR := none
    rgb_int := none
    rgb_f := none
    faceCenter := some (40 / 128, 119 / 2 / 128)
    faceSize := some (20 / 128 * 2, 29 / 128 * 2)
    face_size_scale := 2 }

end CircleAvatar

/-! # Theorems -/

/-! ## Single-precision rounding -/

theorem round_half_even_intCast (K : Int) : round_half_even (K : ℚ) = K := by
  unfold round_half_even
  rw [Int.floor_intCast, sub_self, if_pos (by norm_num)]

theorem floor_le_round_half_even (q : ℚ) : ⌊q⌋ ≤ round_half_even q := by
  unfold round_half_even
  split_ifs <;> omega

theorem round_half_even_near (q : ℚ) (K : Int) (h : |q - K| < 1 / 2) :
    round_half_even q = K := by
  rw [abs_lt] at h
  obtain ⟨h1, h2⟩ := h
  unfold round_half_even
  by_cases hq : (K : ℚ) ≤ q
  · have hf : ⌊q⌋ = K := by
      rw [Int.floor_eq_iff]
      constructor
      · exact hq
      · linarith
    rw [hf, if_pos (by linarith)]
  · have hf : ⌊q⌋ = K - 1 := by
      rw [Int.floor_eq_iff]
      push_cast
      constructor <;> linarith
    rw [hf]
    push_cast
    rw [if_neg (by linarith), if_pos (by linarith)]
    ring

theorem round_half_even_tie (q : ℚ) (K : Int) (h : q - K = 1 / 2 ∨ (K : ℚ) - q = 1 / 2)
    (he : K % 2 = 0) : round_half_even q = K := by
  unfold round_half_even
  rcases h with h | h
  · have hf : ⌊q⌋ = K := by
      rw [Int.floor_eq_iff]
      constructor <;> linarith
    rw [hf, if_neg (by linarith), if_neg (by linarith), if_pos he]
  · have hf : ⌊q⌋ = K - 1 := by
      rw [Int.floor_eq_iff]
      push_cast
      constructor <;> linarith
    rw [hf]
    push_cast
    rw [if_neg (by linarith), if_neg (by linarith), if_neg (by omega)]
    ring

theorem f32_ulp_exp_ge (x : ℚ) : -149 ≤ f32_ulp_exp x := le_max_right _ _

theorem two_zpow_pos (e : Int) : (0 : ℚ) < 2 ^ e := zpow_pos (by norm_num) e

theorem log_two_eq (x : ℚ) (k : Int) (h1 : (2 : ℚ) ^ k ≤ |x|) (h2 : |x| < 2 ^ (k + 1)) :
    Int.log 2 |x| = k := by
  have hpos : 0 < |x| := lt_of_lt_of_le (two_zpow_pos k) h1
  have a : k ≤ Int.log 2 |x| := by
    rw [← Int.zpow_le_iff_le_log (by norm_num) hpos]
    exact_mod_cast h1
  have b : Int.log 2 |x| < k + 1 := by
    rw [← Int.lt_zpow_iff_log_lt (by norm_num) hpos]
    exact_mod_cast h2
  omega

theorem round_f32_eval (x : ℚ) (k e K : Int) (h1 : (2 : ℚ) ^ k ≤ |x|) (h2 : |x| < 2 ^ (k + 1))
    (he : e = max (k - 23) (-149)) (hK : round_half_even (x / 2 ^ e) = K) :
    round_f32 x = K * 2 ^ e := by
  unfold round_f32 f32_ulp_exp
  rw [log_two_eq x k h1 h2, ← he, hK]

theorem round_f32_zero : round_f32 0 = 0 := by
  unfold round_f32
  rw [zero_div]
  have : round_half_even 0 = 0 := by
    have := round_half_even_intCast 0
    simpa using this
  rw [this]
  simp

theorem round_f32_repr (m e : Int) (hm : |m| < 2 ^ 24) (he : -149 ≤ e) :
    round_f32 ((m : ℚ) * 2 ^ e) = (m : ℚ) * 2 ^ e := by
  by_cases h0 : m = 0
  · rw [h0]
    simp only [Int.cast_zero, zero_mul]
    exact round_f32_zero
  · have hx : 0 < |(m : ℚ) * 2 ^ e| := by
      rw [abs_pos]
      exact mul_ne_zero (by exact_mod_cast h0) (ne_of_gt (two_zpow_pos e))
    have hlt : |(m : ℚ) * 2 ^ e| < 2 ^ (e + 24) := by
      rw [abs_mul, abs_of_pos (two_zpow_pos e), zpow_add₀ (by norm_num : (2 : ℚ) ≠ 0), mul_comm]
      apply mul_lt_mul_of_pos_left _ (two_zpow_pos e)
      have : ((|m| : Int) : ℚ) < ((2 ^ 24 : Int) : ℚ) := by exact_mod_cast hm
      rw [Int.cast_abs] at this
      norm_num at this ⊢
      exact this
    have hlog : Int.log 2 |(m : ℚ) * 2 ^ e| < e + 24 := by
      rw [← Int.lt_zpow_iff_log_lt (by norm_num) hx]
      exact_mod_cast hlt
    have hle : f32_ulp_exp ((m : ℚ) * 2 ^ e) ≤ e := by
      unfold f32_ulp_exp
      exact max_le (by omega) he
    unfold round_f32
    generalize f32_ulp_exp ((m : ℚ) * 2 ^ e) = e' at hle ⊢
    obtain ⟨n, hn⟩ := Int.eq_ofNat_of_zero_le (sub_nonneg.mpr hle)
    have hq : (m : ℚ) * 2 ^ e / 2 ^ e' = ((m * 2 ^ n : Int) : ℚ) := by
      have e1 : e = e' + n := by omega
      rw [e1, zpow_add₀ (by norm_num : (2 : ℚ) ≠ 0), zpow_natCast]
      push_cast
      field_simp
      ring
    rw [hq, round_half_even_intCast]
    have e1 : e = n + e' := by omega
    rw [e1, zpow_add₀ (by norm_num : (2 : ℚ) ≠ 0), zpow_natCast]
    push_cast
    ring

theorem two_zpow_ulp_le (x : ℚ) (h : (2 : ℚ) ^ (-149 : Int) ≤ x) : (2 : ℚ) ^ f32_ulp_exp x ≤ x := by
  have hx : 0 < x := lt_of_lt_of_le (two_zpow_pos _) h
  unfold f32_ulp_exp
  rcases max_cases (Int.log 2 |x| - 23) (-149) with ⟨e, -⟩ | ⟨e, -⟩
  · rw [e]
    have h1 : (2 : ℚ) ^ (Int.log 2 |x| - 23) ≤ 2 ^ Int.log 2 |x| :=
      zpow_le_zpow_right₀ (by norm_num) (by omega)
    have h2 : ((2 : ℕ) : ℚ) ^ Int.log 2 |x| ≤ |x| :=
      Int.zpow_log_le_self (by norm_num) (abs_pos.mpr (ne_of_gt hx))
    rw [abs_of_pos hx] at h2 h1
    rw [abs_of_pos hx]
    exact le_trans h1 (by exact_mod_cast h2)
  · rw [e]
    exact h

theorem round_f32_pos (x : ℚ) (h : (2 : ℚ) ^ (-149 : Int) ≤ x) : 0 < round_f32 x := by
  have hle := two_zpow_ulp_le x h
  unfold round_f32
  generalize f32_ulp_exp x = e at hle ⊢
  have h1 : (1 : ℚ) ≤ x / 2 ^ e := by
    rw [le_div_iff₀ (two_zpow_pos e), one_mul]
    exact hle
  have h2 : (1 : Int) ≤ ⌊x / 2 ^ e⌋ := by
    rw [Int.le_floor]
    exact_mod_cast h1
  have h3 := floor_le_round_half_even (x / 2 ^ e)
  have h4 : (1 : ℚ) ≤ (round_half_even (x / 2 ^ e) : ℚ) := by exact_mod_cast le_trans h2 h3
  exact mul_pos (by linarith) (two_zpow_pos e)

theorem f32_pos_ge (h : ℚ) (hr : round_f32 h = h) (hp : 0 < h) : (2 : ℚ) ^ (-149 : Int) ≤ h := by
  have hge := f32_ulp_exp_ge h
  unfold round_f32 at hr
  generalize f32_ulp_exp h = e at hge hr
  generalize round_half_even (h / 2 ^ e) = K at hr
  rw [← hr] at hp ⊢
  have hK : 0 < (K : ℚ) := by
    by_contra hc
    have : (K : ℚ) * 2 ^ e ≤ 0 := mul_nonpos_of_nonpos_of_nonneg (not_lt.mp hc) (le_of_lt (two_zpow_pos e))
    linarith
  have hK1 : (1 : ℚ) ≤ K := by exact_mod_cast (by exact_mod_cast hK : 0 < K)
  have h1 : (2 : ℚ) ^ (-149 : Int) ≤ 2 ^ e := zpow_le_zpow_right₀ (by norm_num) hge
  calc (2 : ℚ) ^ (-149 : Int) ≤ 2 ^ e := h1
    _ = 1 * 2 ^ e := (one_mul _).symm
    _ ≤ K * 2 ^ e := mul_le_mul_of_nonneg_right hK1 (le_of_lt (two_zpow_pos e))

theorem round_half_even_le_floor_add_one (q : ℚ) : round_half_even q ≤ ⌊q⌋ + 1 := by
  unfold round_half_even
  split_ifs <;> omega

theorem abs_round_half_even_le (q : ℚ) (h : |q| < 2 ^ 24) : |(round_half_even q : ℚ)| ≤ 2 ^ 24 := by
  rw [abs_lt] at h
  have h1 := floor_le_round_half_even q
  have h2 := round_half_even_le_floor_add_one q
  have h3 : (-2 ^ 24 : Int) ≤ ⌊q⌋ := by
    rw [Int.le_floor]
    push_cast
    linarith [h.1]
  have h4 : ⌊q⌋ < (2 ^ 24 : Int) := by
    rw [Int.floor_lt]
    push_cast
    exact h.2
  rw [abs_le]
  constructor
  · have : (-2 ^ 24 : Int) ≤ round_half_even q := le_trans h3 h1
    exact_mod_cast this
  · have : round_half_even q ≤ (2 ^ 24 : Int) := by omega
    exact_mod_cast this

/-- A single-precision value of magnitude above `2 ^ j` is a multiple of
`2 ^ (j - 23)`. -/
theorem round_f32_grid (y : ℚ) (j : Int) (h : (2 : ℚ) ^ j < |round_f32 y|) :
    ∃ M : Int, round_f32 y = M * 2 ^ (j - 23) := by
  have hq : |y / 2 ^ f32_ulp_exp y| < 2 ^ 24 := by
    rw [abs_div, abs_of_pos (two_zpow_pos _), div_lt_iff₀ (two_zpow_pos _)]
    have h1 : |y| < ((2 : ℕ) : ℚ) ^ (Int.log 2 |y| + 1) := Int.lt_zpow_succ_log_self (by norm_num) _
    have h2 : (2 : ℚ) ^ (Int.log 2 |y| + 1) ≤ 2 ^ (24 + f32_ulp_exp y) := by
      apply zpow_le_zpow_right₀ (by norm_num)
      have : Int.log 2 |y| - 23 ≤ f32_ulp_exp y := le_max_left _ _
      omega
    have h3 : (2 : ℚ) ^ (24 + f32_ulp_exp y) = 2 ^ 24 * 2 ^ f32_ulp_exp y := by
      rw [zpow_add₀ (by norm_num : (2 : ℚ) ≠ 0)]
      norm_num
    rw [← h3]
    exact lt_of_lt_of_le (by exact_mod_cast h1) h2
  have hK := abs_round_half_even_le _ hq
  unfold round_f32 at h ⊢
  generalize f32_ulp_exp y = e at h hK ⊢
  generalize round_half_even (y / 2 ^ e) = K at h hK ⊢
  have he : j - 23 ≤ e := by
    by_contra hc
    have hc2 : e ≤ j - 24 := by omega
    have h5 : |(K : ℚ) * 2 ^ e| ≤ 2 ^ j := by
      rw [abs_mul, abs_of_pos (two_zpow_pos e)]
      calc |(K : ℚ)| * 2 ^ e ≤ 2 ^ 24 * 2 ^ e :=
            mul_le_mul_of_nonneg_right hK (le_of_lt (two_zpow_pos e))
        _ ≤ 2 ^ 24 * 2 ^ (j - 24) :=
            mul_le_mul_of_nonneg_left (zpow_le_zpow_right₀ (by norm_num) hc2) (by norm_num)
        _ = 2 ^ j := by
            rw [zpow_sub₀ (by norm_num : (2 : ℚ) ≠ 0)]
            norm_num
            field_simp
    linarith
  obtain ⟨n, hn⟩ := Int.eq_ofNat_of_zero_le (sub_nonneg.mpr he)
  refine ⟨K * 2 ^ n, ?_⟩
  have e1 : e = n + (j - 23) := by omega
  rw [e1, zpow_add₀ (by norm_num : (2 : ℚ) ≠ 0), zpow_natCast]
  push_cast
  ring

/-- No single-precision value lies in `(1.28, 1.28 + 1e-9]` or in
`(6.4, 6.4 + 1e-9]`: the tests of lines 467-476 against the `double` products
`128 * 0.01` and `128 * 0.05`, which lie in these ranges, are the tests
against 1.28 and 6.4. -/
theorem shake_test_double (y T : ℚ) :
    (1.28 ≤ T → T ≤ 1.28 + 1 / 10 ^ 9 →
      ((round_f32 y > T ∨ round_f32 y < -T) ↔ (round_f32 y > 1.28 ∨ round_f32 y < -1.28))) ∧
    (6.4 ≤ T → T ≤ 6.4 + 1 / 10 ^ 9 →
      ((round_f32 y > T ∨ round_f32 y < -T) ↔ (round_f32 y > 6.4 ∨ round_f32 y < -6.4))) := by
  constructor
  · intro h1 h2
    constructor
    · rintro (h | h)
      · exact Or.inl (by linarith)
      · exact Or.inr (by linarith)
    · intro h
      have habs : (2 : ℚ) ^ (0 : Int) < |round_f32 y| := by
        rw [zpow_zero, lt_abs]
        rcases h with h | h
        · exact Or.inl (by linarith)
        · exact Or.inr (by linarith)
      obtain ⟨M, hM⟩ := round_f32_grid y 0 habs
      have e23 : (2 : ℚ) ^ ((0 : Int) - 23) = 1 / 8388608 := by norm_num
      rw [e23] at hM
      rw [hM] at h ⊢
      rcases h with h | h
      · left
        have : (10737418 : ℚ) < M := by linarith
        have hi : (10737418 : Int) < M := by exact_mod_cast this
        have : (10737419 : ℚ) ≤ M := by exact_mod_cast (by omega : (10737419 : Int) ≤ M)
        linarith
      · right
        have : (M : ℚ) < -10737418 := by linarith
        have hi : M < (-10737418 : Int) := by exact_mod_cast this
        have : (M : ℚ) ≤ -10737419 := by exact_mod_cast (by omega : M ≤ (-10737419 : Int))
        linarith
  · intro h1 h2
    constructor
    · rintro (h | h)
      · exact Or.inl (by linarith)
      · exact Or.inr (by linarith)
    · intro h
      have habs : (2 : ℚ) ^ (2 : Int) < |round_f32 y| := by
        rw [lt_abs]
        rcases h with h | h
        · exact Or.inl (by norm_num; linarith)
        · exact Or.inr (by norm_num; linarith)
      obtain ⟨M, hM⟩ := round_f32_grid y 2 habs
      have e21 : (2 : ℚ) ^ ((2 : Int) - 23) = 1 / 2097152 := by norm_num
      rw [e21] at hM
      rw [hM] at h ⊢
      rcases h with h | h
      · left
        have : (13421772 : ℚ) < M := by linarith
        have hi : (13421772 : Int) < M := by exact_mod_cast this
        have : (13421773 : ℚ) ≤ M := by exact_mod_cast (by omega : (13421773 : Int) ≤ M)
        linarith
      · right
        have : (M : ℚ) < -13421772 := by linarith
        have hi : M < (-13421772 : Int) := by exact_mod_cast this
        have : (M : ℚ) ≤ -13421773 := by exact_mod_cast (by omega : M ≤ (-13421773 : Int))
        linarith

/-! ## Anchor selection -/

namespace CircleAvatar

theorem calcRect_loop_upto_succ (score : Nat → ℚ) (n : Nat) :
    calcRect_loop_upto score (n + 1) = calcRect_step score (calcRect_loop_upto score n) n :=
  rfl

theorem calcRect_loop_eq (score : Nat → ℚ) :
    calcRect_loop score = calcRect_loop_upto score ANCHORS_WIDTH := rfl

/-- Once no later score exceeds `best_score`, the locals stay as they are. -/
theorem calcRect_loop_upto_stable (score : Nat → ℚ) (n₀ : Nat) (st : Int × Int)
    (h₀ : calcRect_loop_upto score n₀ = st) (n : Nat) (hn : n₀ ≤ n)
    (hle : ∀ i, n₀ ≤ i → i < n → score i ≤ (st.2 : ℚ)) :
    calcRect_loop_upto score n = st := by
  induction n with
  | zero =>
    have : n₀ = 0 := by omega
    subst this; exact h₀
  | succ m ih =>
    rcases Nat.eq_or_lt_of_le hn with h | h
    · rw [← h]; exact h₀
    · have hm : n₀ ≤ m := by omega
      have ihm := ih hm (fun i hi him => hle i hi (by omega))
      rw [calcRect_loop_upto_succ, ihm, calcRect_step, if_neg]
      exact not_lt.mpr (hle m hm (by omega))

theorem calcRect_loop_scores_anchor0 : calcRect_loop scores_anchor0 = (0, 1) := by
  rw [calcRect_loop_eq]
  refine calcRect_loop_upto_stable scores_anchor0 1 (0, 1) ?_ ANCHORS_WIDTH (by decide) ?_
  · norm_num [calcRect_loop_upto, for_loop, calcRect_step, scores_anchor0, HUMAN_THREHOLD,
      float_to_int]
  · intro i hi _
    have : i ≠ 0 := by omega
    simp [scores_anchor0, this]

theorem calcRect_loop_scores_tie : calcRect_loop scores_tie = (2, 1) := by
  rw [calcRect_loop_eq]
  refine calcRect_loop_upto_stable scores_tie 3 (2, 1) ?_ ANCHORS_WIDTH (by decide) ?_
  · norm_num [calcRect_loop_upto, for_loop, calcRect_step, scores_tie, HUMAN_THREHOLD,
      float_to_int]
  · intro i hi _
    have h1 : i ≠ 1 := by omega
    have h2 : i ≠ 2 := by omega
    simp [scores_tie, h1, h2]

theorem calcRect_loop_scores_later_smaller : calcRect_loop scores_later_smaller = (2, 1) := by
  rw [calcRect_loop_eq]
  refine calcRect_loop_upto_stable scores_later_smaller 3 (2, 1) ?_ ANCHORS_WIDTH (by decide) ?_
  · norm_num [calcRect_loop_upto, for_loop, calcRect_step, scores_later_smaller, HUMAN_THREHOLD,
      float_to_int]
  · intro i hi _
    have h1 : i ≠ 1 := by omega
    have h2 : i ≠ 2 := by omega
    simp [scores_later_smaller, h1, h2]

/-- When every score is at most the threshold the loop leaves `pos = -1`. -/
theorem calcRect_loop_none (score : Nat → ℚ)
    (h : ∀ i, i < ANCHORS_WIDTH → score i ≤ (HUMAN_THREHOLD : ℚ)) :
    calcRect_loop score = (-1, HUMAN_THREHOLD) := by
  rw [calcRect_loop_eq]
  exact calcRect_loop_upto_stable score 0 (-1, HUMAN_THREHOLD) rfl ANCHORS_WIDTH
    (Nat.zero_le _) (fun i _ hi => h i hi)

theorem calcRect_eq (filter : circle_avatar_filter_data) :
    calcRect filter =
      if (calcRect_loop filter.output_score_data).1 > 0 then
        calcRectInner { filter with box_list := box_next filter.box_list }
          (calcRect_loop filter.output_score_data).1.toNat
      else
        { filter with
          box_list := box_next filter.box_list
          boxes := Function.update filter.boxes (box_next filter.box_list)
            (set_box_value (-1) (-1) (-1) (-1))
          current_box := set_box_value (-1) (-1) (-1) (-1) } := rfl

/-- C1 (the code departs from the claim): `calcRect` does not always decode
the lowest index of the greatest score. With anchor 0 the only score above
the threshold the loop ends at `pos = 0`, which the test `pos > 0` rejects, so
the invalid box is reported. With anchors 1 and 2 tied at 1.5 the loop ends at
index 2 and decodes it, because `best_score` is an `int` and keeps only 1
after anchor 1. With 1.7 at anchor 1 and 1.5 at anchor 2 the loop again ends
at index 2, whose score is not the greatest. -/
theorem calcRect_selection_departs :
    ((∀ k, scores_anchor0 k ≤ scores_anchor0 0) ∧ (HUMAN_THREHOLD : ℚ) < scores_anchor0 0 ∧
      (calcRect_loop scores_anchor0).1 = 0 ∧
      (calcRect (example_filter scores_anchor0 coords_example)).current_box
        = set_box_value (-1) (-1) (-1) (-1)) ∧
    ((∀ k, scores_tie k ≤ scores_tie 1) ∧ (HUMAN_THREHOLD : ℚ) < scores_tie 1 ∧
      scores_tie 2 = scores_tie 1 ∧
      (calcRect_loop scores_tie).1 = 2 ∧
      calcRect (example_filter scores_tie coords_example)
        = calcRectInner
            { example_filter scores_tie coords_example with box_list := 1 } 2) ∧
    (scores_later_smaller 2 < scores_later_smaller 1 ∧
      (calcRect_loop scores_later_smaller).1 = 2) := by
  refine ⟨⟨?_, ?_, ?_, ?_⟩, ⟨?_, ?_, ?_, ?_, ?_⟩, ?_, ?_⟩
  · intro k
    by_cases hk : k = 0 <;> simp [scores_anchor0, hk]
  · norm_num [scores_anchor0, HUMAN_THREHOLD]
  · rw [calcRect_loop_scores_anchor0]
  · rw [calcRect_eq]
    simp [example_filter, calcRect_loop_scores_anchor0]
  · intro k
    by_cases h1 : k = 1
    · simp [h1]
    · by_cases h2 : k = 2
      · simp [scores_tie, h2]
      · simp [scores_tie, h1, h2]; norm_num
  · norm_num [scores_tie, HUMAN_THREHOLD]
  · norm_num [scores_tie]
  · rw [calcRect_loop_scores_tie]
  · rw [calcRect_eq]
    simp [example_filter, calcRect_loop_scores_tie, box_next]
  · norm_num [scores_later_smaller]
  · rw [calcRect_loop_scores_later_smaller]

/-- C2: when no score is strictly greater than the threshold, `calcRect`
advances `box_list` to the next node, writes the invalid box, whose four
fields are all `-1`, into that node and into `current_box` (whatever
`current_box` held), and leaves the other two nodes as they were. -/
theorem calcRect_no_detection (filter : circle_avatar_filter_data)
    (h : ∀ i, i < ANCHORS_WIDTH → filter.output_score_data i ≤ (HUMAN_THREHOLD : ℚ)) :
    (calcRect filter).box_list = box_next filter.box_list ∧
    (calcRect filter).current_box
      = { face_center_x := -1, face_center_y := -1, face_width := -1, face_height := -1 } ∧
    (calcRect filter).boxes (calcRect filter).box_list
      = { face_center_x := -1, face_center_y := -1, face_width := -1, face_height := -1 } ∧
    ∀ k, k ≠ box_next filter.box_list → (calcRect filter).boxes k = filter.boxes k := by
  have hpos : calcRect_loop filter.output_score_data = (-1, HUMAN_THREHOLD) :=
    calcRect_loop_none _ h
  rw [calcRect_eq, hpos]
  refine ⟨?_, ?_, ?_, ?_⟩
  · simp
  · simp [set_box_value]
  · simp [set_box_value]
  · intro k hk
    simp [Function.update, hk]

/-- C2 at a concrete state: every score equals the threshold 0 and the
previous output box is `(40, 40, 20, 20)`. Afterwards the output box and node
1 have all four fields `-1`. -/
theorem calcRect_no_detection_witness :
    (∀ i, i < ANCHORS_WIDTH →
      (example_filter scores_zero coords_example).output_score_data i ≤ (HUMAN_THREHOLD : ℚ)) ∧
    (example_filter scores_zero coords_example).current_box.face_center_x = 40 ∧
    (calcRect (example_filter scores_zero coords_example)).current_box
      = { face_center_x := -1, face_center_y := -1, face_width := -1, face_height := -1 } ∧
    (calcRect (example_filter scores_zero coords_example)).boxes 1
      = { face_center_x := -1, face_center_y := -1, face_width := -1, face_height := -1 } :=
  have h : ∀ i, i < ANCHORS_WIDTH →
      (example_filter scores_zero coords_example).output_score_data i
        ≤ (HUMAN_THREHOLD : ℚ) := by
    intro i _; simp [example_filter, scores_zero, HUMAN_THREHOLD]
  ⟨h, rfl, (calcRect_no_detection _ h).2.1, by
    have := (calcRect_no_detection _ h).2.2.1
    rw [(calcRect_no_detection _ h).1] at this
    have e : box_next (example_filter scores_zero coords_example).box_list = 1 := rfl
    rw [e] at this
    exact this⟩

end CircleAvatar

/-! ## The anchor table -/

namespace CircleAvatar

theorem write_all_append (st : anchor_cursor) (us vs : List (ℚ × ℚ)) :
    write_all st (us ++ vs) = write_all (write_all st us) vs := by
  simp [write_all, List.foldl_append]

theorem for_loop_write_all_flatMap (g : Nat → List (ℚ × ℚ)) (n : Nat) (st : anchor_cursor) :
    for_loop (fun st x => write_all st (g x)) st n = write_all st ((List.range n).flatMap g) := by
  induction n with
  | zero => rfl
  | succ m ih =>
    rw [List.range_succ, List.flatMap_append, write_all_append, ← ih]
    simp [for_loop, List.flatMap_cons]

theorem for_loop_write_const (x y : ℚ) (n : Nat) (st : anchor_cursor) :
    for_loop (fun st _n => generateAnchors_write st x y) st n
      = write_all st (List.replicate n (x, y)) := by
  induction n with
  | zero => rfl
  | succ m ih =>
    rw [List.replicate_succ', write_all_append, ← ih]
    rfl

theorem write_all_pos (vs : List (ℚ × ℚ)) (st : anchor_cursor) :
    (write_all st vs).pos = st.pos + vs.length := by
  induction vs generalizing st with
  | nil => rfl
  | cons v vs ih =>
    have : write_all st (v :: vs) = write_all (generateAnchors_write st v.1 v.2) vs := rfl
    rw [this, ih]; simp [generateAnchors_write]; omega

theorem write_all_anchors_lt (vs : List (ℚ × ℚ)) (st : anchor_cursor) (k : Nat)
    (hk : k < st.pos) : (write_all st vs).anchors k = st.anchors k := by
  induction vs generalizing st with
  | nil => rfl
  | cons v vs ih =>
    have : write_all st (v :: vs) = write_all (generateAnchors_write st v.1 v.2) vs := rfl
    rw [this, ih _ (by simp [generateAnchors_write]; omega)]
    simp [generateAnchors_write, Function.update, Nat.ne_of_lt hk]

theorem write_all_anchors_ge (vs : List (ℚ × ℚ)) (st : anchor_cursor) (k : Nat)
    (hk : st.pos + vs.length ≤ k) : (write_all st vs).anchors k = st.anchors k := by
  induction vs generalizing st with
  | nil => rfl
  | cons v vs ih =>
    have : write_all st (v :: vs) = write_all (generateAnchors_write st v.1 v.2) vs := rfl
    have hl : (v :: vs).length = vs.length + 1 := rfl
    rw [this, ih _ (by simp [generateAnchors_write]; omega)]
    have : k ≠ st.pos := by omega
    simp [generateAnchors_write, Function.update, this]

theorem write_all_anchors_mid (vs : List (ℚ × ℚ)) (st : anchor_cursor) (k : Nat)
    (hk : k < vs.length) : vs[k]? = some ((write_all st vs).anchors (st.pos + k)) := by
  induction vs generalizing st k with
  | nil => simp at hk
  | cons v vs ih =>
    have e : write_all st (v :: vs) = write_all (generateAnchors_write st v.1 v.2) vs := rfl
    rw [e]
    cases k with
    | zero =>
      rw [write_all_anchors_lt _ _ _ (by simp [generateAnchors_write])]
      simp [generateAnchors_write]
    | succ m =>
      have hm : m < vs.length := by simpa using hk
      have := ih (generateAnchors_write st v.1 v.2) m hm
      have e2 : (generateAnchors_write st v.1 v.2).pos + m = st.pos + (m + 1) := by
        simp [generateAnchors_write]; omega
      rw [e2] at this
      simpa using this

theorem ceil_128_8 : ⌈(128 : ℚ) / (8 : ℕ)⌉₊ = 16 := by
  rw [Nat.ceil_eq_iff (by norm_num)]; norm_num

theorem ceil_128_16 : ⌈(128 : ℚ) / (16 : ℕ)⌉₊ = 8 := by
  rw [Nat.ceil_eq_iff (by norm_num)]; norm_num

theorem generateAnchors_loops_eq (tbl : Nat → ℚ × ℚ) :
    generateAnchors_loops tbl = write_all { anchors := tbl, pos := 0 } reference_anchors := by
  simp only [generateAnchors_loops, for_loop_write_const, for_loop_write_all_flatMap]
  have e : List.range [8, 16].length = [0, 1] := rfl
  rw [e]
  simp only [List.flatMap_cons, List.flatMap_nil, List.append_nil, reference_anchors, reference_grid, ceil_128_8, ceil_128_16, TFLITE_HEIGHT, TFLITE_WIDTH]
  have g0 : ([8, 16] : List Nat).getD 0 0 = 8 := rfl
  have g1 : ([8, 16] : List Nat).getD 1 0 = 16 := rfl
  have a0 : ([2, 6] : List Nat).getD 0 0 = 2 := rfl
  have a1 : ([2, 6] : List Nat).getD 1 0 = 6 := rfl
  have r8 : (128 + 8 - 1) / 8 = 16 := rfl
  have r16 : (128 + 16 - 1) / 16 = 8 := rfl
  simp only [g0, g1, a0, a1, r8, r16]
  have m : ∀ (s : Nat) (x : Nat), (s : ℚ) * ((x : ℚ) + 1 / 2) = ((x : ℚ) + 1 / 2) * (s : ℚ) :=
    fun s x => mul_comm _ _
  simp only [m]

theorem length_flatMap_const {α β : Type} (l : List α) (g : α → List β) (c : Nat)
    (h : ∀ x, (g x).length = c) : (l.flatMap g).length = l.length * c := by
  induction l with
  | nil => simp
  | cons x xs ih => simp [List.flatMap_cons, ih, h, Nat.succ_mul, Nat.add_comm]

theorem reference_anchors_length : reference_anchors.length = ANCHORS_WIDTH := by
  have h8 : (reference_grid 8 2).length = 16 * (16 * 2) := by
    unfold reference_grid
    rw [ceil_128_8, length_flatMap_const _ _ (16 * 2), List.length_range]
    intro gy
    rw [length_flatMap_const _ _ 2, List.length_range]
    intro gx
    exact List.length_replicate _ _
  have h16 : (reference_grid 16 6).length = 8 * (8 * 6) := by
    unfold reference_grid
    rw [ceil_128_16, length_flatMap_const _ _ (8 * 6), List.length_range]
    intro gy
    rw [length_flatMap_const _ _ 6, List.length_range]
    intro gx
    exact List.length_replicate _ _
  rw [reference_anchors, List.length_append, h8, h16]
  rfl

theorem reference_anchors_zero : reference_anchors[0]? = some (4, 4) := by
  have e : List.range 16 = 0 :: (List.range 15).map Nat.succ := List.range_succ_eq_map 15
  simp only [reference_anchors, reference_grid, ceil_128_8, e, List.flatMap_cons]
  norm_num [List.replicate]

theorem anchor_at_generateAnchors (filter : circle_avatar_filter_data) (k : Nat) :
    anchor_at (generateAnchors filter) k
      = (write_all { anchors := fun i => anchor_at filter i, pos := 0 } reference_anchors).anchors k := by
  rw [← generateAnchors_loops_eq]
  cases h : filter.anchors <;> simp [generateAnchors, anchor_at, h]

/-- C3: the table left by `generateAnchors` is the reference list of the
specification. The cursor ends at 896, the reference list has 896 entries,
entry `k` of the table is entry `k` of the reference list for every
`k < 896`, rows from 896 on are not written (they keep what they held; a NULL
table counts as zeroed), and entry 0 is `(4, 4)`. -/
theorem generateAnchors_table (filter : circle_avatar_filter_data) :
    (∀ tbl, (generateAnchors_loops tbl).pos = ANCHORS_WIDTH) ∧
    reference_anchors.length = ANCHORS_WIDTH ∧
    (∀ k, k < ANCHORS_WIDTH →
      reference_anchors[k]? = some (anchor_at (generateAnchors filter) k)) ∧
    (∀ k, ANCHORS_WIDTH ≤ k →
      anchor_at (generateAnchors filter) k = anchor_at filter k) ∧
    anchor_at (generateAnchors filter) 0 = (4, 4) := by
  have hmid : ∀ k, k < ANCHORS_WIDTH →
      reference_anchors[k]? = some (anchor_at (generateAnchors filter) k) := by
    intro k hk
    rw [anchor_at_generateAnchors]
    have := write_all_anchors_mid reference_anchors
      { anchors := fun i => anchor_at filter i, pos := 0 } k
      (by rw [reference_anchors_length]; exact hk)
    simpa using this
  refine ⟨?_, reference_anchors_length, hmid, ?_, ?_⟩
  · intro tbl
    rw [generateAnchors_loops_eq, write_all_pos, reference_anchors_length]
    simp
  · intro k hk
    rw [anchor_at_generateAnchors, write_all_anchors_ge]
    rw [reference_anchors_length]
    simpa using hk
  · have h0 := hmid 0 (by decide)
    rw [reference_anchors_zero] at h0
    exact (Option.some.inj h0).symm
end CircleAvatar

/-! ## The stabiliser -/

namespace CircleAvatar

theorem history_scan_unfold (filter : circle_avatar_filter_data) :
    history_scan filter =
      history_step filter.boxes
        (history_step filter.boxes
          (history_step filter.boxes
            { p_box := filter.box_list
              old_face_center_x := 0
              old_face_center_y := 0
              old_face_width := 0
              old_face_height := 0
              valid_num := 0 } 0) 1) 2 := rfl

theorem history_step_valid_num_le (boxes : Fin 3 → box) (a : history_acc) (i : Nat) :
    (history_step boxes a i).valid_num ≤ a.valid_num + 1 := by
  unfold history_step
  dsimp only
  split_ifs <;> simp

theorem history_step_p_box (boxes : Fin 3 → box) (a : history_acc) (i : Nat) :
    (history_step boxes a i).p_box = box_next a.p_box := by
  unfold history_step
  dsimp only
  split_ifs <;> rfl

theorem history_step_neg (boxes : Fin 3 → box) (a : history_acc) (i : Nat)
    (h : ¬ box_positive (boxes (box_next a.p_box))) :
    (history_step boxes a i).valid_num = a.valid_num := by
  unfold history_step
  dsimp only
  rw [if_neg h]

theorem box_next_surj (p k : Fin 3) :
    k = box_next p ∨ k = box_next (box_next p) ∨ k = box_next (box_next (box_next p)) := by
  unfold box_next
  fin_cases p <;> fin_cases k <;> simp

/-- Fewer than three positive nodes are counted when some node is not
positive. -/
theorem history_scan_cold (filter : circle_avatar_filter_data)
    (h : ¬ ∀ k, box_positive (filter.boxes k)) :
    (history_scan filter).valid_num ≠ RELIEVE_SHAKE_BOX_NUM := by
  obtain ⟨k, hk⟩ := not_forall.mp h
  rw [history_scan_unfold]
  set a0 : history_acc :=
    { p_box := filter.box_list
      old_face_center_x := 0
      old_face_center_y := 0
      old_face_width := 0
      old_face_height := 0
      valid_num := 0 } with ha0
  set a1 := history_step filter.boxes a0 0 with ha1
  set a2 := history_step filter.boxes a1 1 with ha2
  have l1 : a1.valid_num ≤ 1 := history_step_valid_num_le filter.boxes a0 0
  have l2 : a2.valid_num ≤ a1.valid_num + 1 := history_step_valid_num_le filter.boxes a1 1
  have l3 := history_step_valid_num_le filter.boxes a2 2
  have p1 : a1.p_box = box_next filter.box_list := history_step_p_box filter.boxes a0 0
  have p2 : a2.p_box = box_next (box_next filter.box_list) := by
    rw [ha2, history_step_p_box, p1]
  show (history_step filter.boxes a2 2).valid_num ≠ 3
  rcases box_next_surj filter.box_list k with e | e | e
  · have : a1.valid_num = a0.valid_num := history_step_neg filter.boxes a0 0 (by rw [← e]; exact hk)
    have z : a0.valid_num = 0 := rfl
    omega
  · have : a2.valid_num = a1.valid_num :=
      history_step_neg filter.boxes a1 1 (by rw [p1, ← e]; exact hk)
    omega
  · have : (history_step filter.boxes a2 2).valid_num = a2.valid_num :=
      history_step_neg filter.boxes a2 2 (by rw [p2, ← e]; exact hk)
    omega

/-- C4: cold-state passthrough. When the three history nodes are not all
positive (the validity test of the scan), `calcRectInner` sets `current_box`
to the decoded box, field by field and without smoothing. -/
theorem calcRectInner_cold_passthrough (filter : circle_avatar_filter_data) (index : Nat)
    (h : ¬ ∀ k, box_positive (filter.boxes k)) :
    (calcRectInner filter index).current_box = decoded_box filter index ∧
    (calcRectInner filter index).current_box.face_center_x
      = filter.output_coordinates_data (index * 16) + (anchor_at filter index).1 + filter.x_bias ∧
    (calcRectInner filter index).current_box.face_center_y
      = filter.output_coordinates_data (index * 16 + 1) + (anchor_at filter index).2
        + filter.y_bias ∧
    (calcRectInner filter index).current_box.face_width
      = filter.output_coordinates_data (index * 16 + 2) ∧
    (calcRectInner filter index).current_box.face_height
      = filter.output_coordinates_data (index * 16 + 3) := by
  have hc := history_scan_cold filter h
  have e : (calcRectInner filter index).current_box = decoded_box filter index := by
    unfold calcRectInner
    simp only [if_pos hc]
  rw [e]
  exact ⟨rfl, rfl, rfl, rfl, rfl⟩

/-- C4 on the freshly built ring, decoding anchor 2 of the example
coordinates. -/
theorem calcRectInner_cold_passthrough_witness :
    (¬ ∀ k, box_positive ((example_filter scores_tie coords_example).boxes k)) ∧
    (calcRectInner (example_filter scores_tie coords_example) 2).current_box.face_width = 30 :=
  have h : ¬ ∀ k, box_positive ((example_filter scores_tie coords_example).boxes k) := by
    intro hall
    have := (hall 0).1
    simp [example_filter, fresh_boxes] at this
  ⟨h, by
    rw [(calcRectInner_cold_passthrough _ 2 h).2.2.2.1]
    simp [example_filter, coords_example]⟩

theorem history_step_pos (boxes : Fin 3 → box) (a : history_acc) (i : Nat)
    (h : box_positive (boxes (box_next a.p_box))) :
    history_step boxes a i =
      { p_box := box_next a.p_box
        old_face_center_x :=
          round_f32 (a.old_face_center_x + (boxes (box_next a.p_box)).face_center_x)
        old_face_center_y :=
          round_f32 (a.old_face_center_y + (boxes (box_next a.p_box)).face_center_y)
        old_face_width := round_f32 (a.old_face_width + (boxes (box_next a.p_box)).face_width)
        old_face_height := round_f32 (a.old_face_height + (boxes (box_next a.p_box)).face_height)
        valid_num := a.valid_num + 1 } := by
  unfold history_step
  dsimp only
  rw [if_pos h]

theorem box_next_three (p : Fin 3) : box_next (box_next (box_next p)) = p := by
  unfold box_next
  fin_cases p <;> rfl

/-- With three positive nodes the scan counts three and adds all of them, in
the order of the ring from the node after `box_list`, one single-precision
addition at a time. -/
theorem history_scan_tracking (filter : circle_avatar_filter_data)
    (h : ∀ k, box_positive (filter.boxes k)) :
    (history_scan filter).valid_num = 3 ∧
    (history_scan filter).old_face_center_x
      = round_f32 (round_f32 (round_f32 (0 + (filter.boxes (box_next filter.box_list)).face_center_x)
          + (filter.boxes (box_next (box_next filter.box_list))).face_center_x)
          + (filter.boxes filter.box_list).face_center_x) ∧
    (history_scan filter).old_face_center_y
      = round_f32 (round_f32 (round_f32 (0 + (filter.boxes (box_next filter.box_list)).face_center_y)
          + (filter.boxes (box_next (box_next filter.box_list))).face_center_y)
          + (filter.boxes filter.box_list).face_center_y) ∧
    (history_scan filter).old_face_width
      = round_f32 (round_f32 (round_f32 (0 + (filter.boxes (box_next filter.box_list)).face_width)
          + (filter.boxes (box_next (box_next filter.box_list))).face_width)
          + (filter.boxes filter.box_list).face_width) ∧
    (history_scan filter).old_face_height
      = round_f32 (round_f32 (round_f32 (0 + (filter.boxes (box_next filter.box_list)).face_height)
          + (filter.boxes (box_next (box_next filter.box_list))).face_height)
          + (filter.boxes filter.box_list).face_height) := by
  rw [history_scan_unfold]
  rw [history_step_pos _ _ 0 (h _), history_step_pos _ _ 1 (h _), history_step_pos _ _ 2 (h _)]
  dsimp only
  rw [box_next_three]
  exact ⟨rfl, rfl, rfl, rfl, rfl⟩

theorem deadband_code {α : Type} (d B : ℚ) (a b : α) :
    (if d > B ∨ d < -B then a else b) = if |d| ≤ B then b else a := by
  by_cases h : |d| ≤ B
  · rw [if_pos h, if_neg]
    rw [abs_le] at h
    rintro (h1 | h1) <;> linarith [h.1, h.2]
  · rw [if_neg h, if_pos]
    by_contra hc
    apply h
    rw [abs_le]
    constructor
    · by_contra hc2; exact hc (Or.inr (by linarith [not_le.mp hc2]))
    · by_contra hc2; exact hc (Or.inl (not_le.mp hc2))

theorem shake_update_eq (cur : box) (old_x old_y old_w old_h : ℚ) :
    shake_update cur old_x old_y old_w old_h =
      { face_center_x := deadband 1.28 6 cur.face_center_x old_x
        face_center_y := deadband 1.28 6 cur.face_center_y old_y
        face_width := deadband 6.4 15 cur.face_width old_w
        face_height := deadband 6.4 15 cur.face_height old_h } := by
  have b1 : (TFLITE_WIDTH : ℚ) * RELIEVE_SHAKE_POS_BIAS = 1.28 := by
    norm_num [TFLITE_WIDTH, RELIEVE_SHAKE_POS_BIAS]
  have b2 : (TFLITE_HEIGHT : ℚ) * RELIEVE_SHAKE_POS_BIAS = 1.28 := by
    norm_num [TFLITE_HEIGHT, RELIEVE_SHAKE_POS_BIAS]
  have b3 : (TFLITE_WIDTH : ℚ) * RELIEVE_SHAKE_SIZE_BIAS = 6.4 := by
    norm_num [TFLITE_WIDTH, RELIEVE_SHAKE_SIZE_BIAS]
  have b4 : (TFLITE_HEIGHT : ℚ) * RELIEVE_SHAKE_SIZE_BIAS = 6.4 := by
    norm_num [TFLITE_HEIGHT, RELIEVE_SHAKE_SIZE_BIAS]
  unfold shake_update deadband
  simp only [neg_mul, b1, b2, b3, b4, deadband_code, RELIEVE_SHAKE_POS_SCALE,
    RELIEVE_SHAKE_SIZE_SCALE]
  split_ifs <;> rfl

/-- Three positive single-precision values: adding the first to 0 gives it
back, and the single-precision sum of the three is positive. -/
theorem sum3_pos (a b c : ℚ) (ha : is_f32 a) (hc : is_f32 c) (pa : 0 < a) (pb : 0 < b)
    (pc : 0 < c) :
    round_f32 (0 + a) = a ∧ 0 < round_f32 (round_f32 (a + b) + c) := by
  have la := f32_pos_ge a ha.1 pa
  have lc := f32_pos_ge c hc.1 pc
  have s2 : 0 < round_f32 (a + b) := round_f32_pos _ (by linarith)
  refine ⟨by rw [zero_add, ha.1], round_f32_pos _ (by linarith)⟩

theorem calcRectInner_tracking (filter : circle_avatar_filter_data) (index : Nat)
    (h : ∀ k, box_positive (filter.boxes k)) (hf : ∀ k, box_is_f32 (filter.boxes k)) :
    (calcRectInner filter index).current_box =
      { face_center_x :=
          deadband 1.28 6 filter.current_box.face_center_x
            (history_mean filter.boxes filter.box_list).face_center_x
        face_center_y :=
          deadband 1.28 6 filter.current_box.face_center_y
            (history_mean filter.boxes filter.box_list).face_center_y
        face_width :=
          deadband 6.4 15 filter.current_box.face_width
            (history_mean filter.boxes filter.box_list).face_width
        face_height :=
          deadband 6.4 15 filter.current_box.face_height
            (history_mean filter.boxes filter.box_list).face_height } := by
  obtain ⟨hn, hx, hy, hw, hh⟩ := history_scan_tracking filter h
  obtain ⟨zx, px⟩ := sum3_pos _ _ _ (hf (box_next filter.box_list)).1 (hf filter.box_list).1
    (h (box_next filter.box_list)).2.2.1 (h (box_next (box_next filter.box_list))).2.2.1
    (h filter.box_list).2.2.1
  obtain ⟨zy, -⟩ := sum3_pos _ _ _ (hf (box_next filter.box_list)).2.1 (hf filter.box_list).2.1
    (h (box_next filter.box_list)).2.2.2 (h (box_next (box_next filter.box_list))).2.2.2
    (h filter.box_list).2.2.2
  obtain ⟨zw, -⟩ := sum3_pos _ _ _ (hf (box_next filter.box_list)).2.2.1 (hf filter.box_list).2.2.1
    (h (box_next filter.box_list)).1 (h (box_next (box_next filter.box_list))).1
    (h filter.box_list).1
  obtain ⟨zh, -⟩ := sum3_pos _ _ _ (hf (box_next filter.box_list)).2.2.2 (hf filter.box_list).2.2.2
    (h (box_next filter.box_list)).2.1 (h (box_next (box_next filter.box_list))).2.1
    (h filter.box_list).2.1
  rw [zx] at hx
  rw [zy] at hy
  rw [zw] at hw
  rw [zh] at hh
  have hxpos : (history_scan filter).old_face_center_x ≠ 0 := by
    rw [hx]
    exact ne_of_gt px
  unfold calcRectInner
  have hn' : ¬ (history_scan filter).valid_num ≠ RELIEVE_SHAKE_BOX_NUM := by
    rw [hn]; exact fun hc => hc rfl
  simp only [if_neg hn', if_pos (Or.inl hxpos : (history_scan filter).old_face_center_x ≠ 0 ∨ _)]
  rw [shake_update_eq, hn, hx, hy, hw, hh]
  simp only [history_mean, mean3, Nat.cast_ofNat]

theorem round_f32_natCast (n : Nat) (h : n < 2 ^ 24) : round_f32 (n : ℚ) = n := by
  have h1 := round_f32_repr (n : Int) 0 (by rw [abs_of_nonneg (by omega)]; exact_mod_cast h)
    (by norm_num)
  simpa using h1

theorem is_f32_natCast (n : Nat) (h : n < 2 ^ 24) : is_f32 (n : ℚ) := by
  refine ⟨round_f32_natCast n h, ?_⟩
  rw [abs_of_nonneg (by positivity)]
  calc (n : ℚ) ≤ 2 ^ 24 := by exact_mod_cast le_of_lt h
    _ ≤ 2 ^ 126 := by norm_num

/-- The single-precision operations on the centre x of `rounding_filter`: the
sum of the three nodes is a tie, rounded down to `256.00006103515625`; the
mean is `85.33335113525390625`. -/
theorem rounding_filter_center_x :
    round_f32 (5592407 / 65536 : ℚ) = 5592407 / 65536 ∧
    round_f32 (11017041 / 131072 : ℚ) = 11017041 / 131072 ∧
    round_f32 (5592407 / 32768 : ℚ) = 5592407 / 32768 ∧
    round_f32 (16777221 / 65536 : ℚ) = 4194305 / 16384 ∧
    round_f32 (4194305 / 49152 : ℚ) = 11184813 / 131072 ∧
    round_f32 (41943 / 32768 : ℚ) = 41943 / 32768 := by
  refine ⟨?_, ?_, ?_, ?_, ?_, ?_⟩
  · have h := round_f32_repr 5592407 (-16) (by norm_num) (by norm_num)
    norm_num at h
    exact h
  · have h := round_f32_repr 11017041 (-17) (by norm_num) (by norm_num)
    norm_num at h
    exact h
  · have h := round_f32_repr 5592407 (-15) (by norm_num) (by norm_num)
    norm_num at h
    exact h
  · have hK : round_half_even ((16777221 / 65536 : ℚ) / 2 ^ (-15 : Int)) = 8388610 :=
      round_half_even_tie _ _ (Or.inl (by norm_num)) (by decide)
    have h := round_f32_eval (16777221 / 65536) 8 (-15) 8388610
      (by rw [abs_of_nonneg (by norm_num)]; norm_num)
      (by rw [abs_of_nonneg (by norm_num)]; norm_num) (by decide) hK
    rw [h]
    norm_num
  · have hK : round_half_even ((4194305 / 49152 : ℚ) / 2 ^ (-17 : Int)) = 11184813 :=
      round_half_even_near _ _ (by
        rw [abs_lt]
        constructor <;> norm_num)
    have h := round_f32_eval (4194305 / 49152) 6 (-17) 11184813
      (by rw [abs_of_nonneg (by norm_num)]; norm_num)
      (by rw [abs_of_nonneg (by norm_num)]; norm_num) (by decide) hK
    rw [h]
    norm_num
  · have h := round_f32_repr 41943 (-15) (by norm_num) (by norm_num)
    norm_num at h
    exact h

end CircleAvatar

/-! ## The decoded box -/

namespace CircleAvatar

theorem calcRectInner_boxes (filter : circle_avatar_filter_data) (index : Nat) :
    (calcRectInner filter index).boxes
      = Function.update filter.boxes filter.box_list (decoded_box filter index) := by
  unfold calcRectInner
  dsimp only
  split_ifs <;> rfl

theorem calcRectInner_box_list (filter : circle_avatar_filter_data) (index : Nat) :
    (calcRectInner filter index).box_list = filter.box_list := by
  unfold calcRectInner
  dsimp only
  split_ifs <;> rfl

theorem calcRect_valid (filter : circle_avatar_filter_data) (i : Nat)
    (hi : (calcRect_loop filter.output_score_data).1 = (i : Int)) (hpos : 0 < i) :
    calcRect filter = calcRectInner { filter with box_list := box_next filter.box_list } i := by
  rw [calcRect_eq, hi, if_pos (by exact_mod_cast hpos)]
  simp

theorem calcRect_valid_node (f : circle_avatar_filter_data) (i : Nat)
    (hi : (calcRect_loop f.output_score_data).1 = (i : Int)) (hpos : 0 < i) :
    (calcRect f).box_list = box_next f.box_list ∧
    (calcRect f).boxes (box_next f.box_list) =
      { face_center_x := (anchor_at f i).1 + f.output_coordinates_data (16 * i + 0) + f.x_bias
        face_center_y := (anchor_at f i).2 + f.output_coordinates_data (16 * i + 1) + f.y_bias
        face_width := f.output_coordinates_data (16 * i + 2)
        face_height := f.output_coordinates_data (16 * i + 3) } := by
  rw [calcRect_valid f i hi hpos, calcRectInner_box_list, calcRectInner_boxes]
  refine ⟨rfl, ?_⟩
  have e : ({ f with box_list := box_next f.box_list } : circle_avatar_filter_data).box_list
      = box_next f.box_list := rfl
  rw [e, Function.update_same]
  have hx : (anchor_at f i).1 + f.output_coordinates_data (16 * i + 0) + f.x_bias
      = f.output_coordinates_data (i * 16) + (anchor_at f i).1 + f.x_bias := by
    rw [Nat.add_zero, Nat.mul_comm]; ring
  have hy : (anchor_at f i).2 + f.output_coordinates_data (16 * i + 1) + f.y_bias
      = f.output_coordinates_data (i * 16 + 1) + (anchor_at f i).2 + f.y_bias := by
    rw [Nat.mul_comm]; ring
  rw [hx, hy, Nat.mul_comm 16 i]
  rfl

theorem calcRect_valid_node_congr (f g : circle_avatar_filter_data) (i : Nat)
    (hi : (calcRect_loop f.output_score_data).1 = (i : Int)) (hpos : 0 < i)
    (hs : g.output_score_data = f.output_score_data) (hb : g.box_list = f.box_list)
    (ha : g.anchors = f.anchors) (hx : g.x_bias = f.x_bias) (hy : g.y_bias = f.y_bias)
    (hc : ∀ c, c < 4 → g.output_coordinates_data (16 * i + c)
      = f.output_coordinates_data (16 * i + c)) :
    (calcRect g).boxes (box_next f.box_list) = (calcRect f).boxes (calcRect f).box_list := by
  have hg : (calcRect_loop g.output_score_data).1 = (i : Int) := by rw [hs]; exact hi
  have kf := calcRect_valid_node f i hi hpos
  have kg := calcRect_valid_node g i hg hpos
  rw [kf.1, kf.2, ← hb, kg.2]
  have an : anchor_at g i = anchor_at f i := by
    unfold anchor_at
    rw [ha]
  rw [an, hx, hy, hc 0 (by decide), hc 1 (by decide), hc 2 (by decide), hc 3 (by decide)]

/-- C10: for a valid decode (the selection loop ends at `pos = i > 0`),
`calcRect` advances `box_list` and writes into that node the box with centre
`anchor[i] + coord[16 i + 0 .. 1] + bias` and size `coord[16 i + 2 .. 3]`.
Any coordinate tensor agreeing on these four entries gives the same node. -/
theorem calcRect_pushes_decoded (filter : circle_avatar_filter_data) (i : Nat)
    (hi : (calcRect_loop filter.output_score_data).1 = (i : Int)) (hpos : 0 < i) :
    (calcRect filter).box_list = box_next filter.box_list ∧
    (calcRect filter).boxes (calcRect filter).box_list =
      { face_center_x :=
          (anchor_at filter i).1 + filter.output_coordinates_data (16 * i + 0) + filter.x_bias
        face_center_y :=
          (anchor_at filter i).2 + filter.output_coordinates_data (16 * i + 1) + filter.y_bias
        face_width := filter.output_coordinates_data (16 * i + 2)
        face_height := filter.output_coordinates_data (16 * i + 3) } ∧
    ∀ coord : Nat → ℚ,
      (∀ c, c < 4 → coord (16 * i + c) = filter.output_coordinates_data (16 * i + c)) →
      (calcRect { filter with output_coordinates_data := coord }).boxes
          (box_next filter.box_list)
        = (calcRect filter).boxes (calcRect filter).box_list := by
  have k := calcRect_valid_node filter i hi hpos
  refine ⟨k.1, ?_, ?_⟩
  · rw [k.1]; exact k.2
  · intro coord hc
    exact calcRect_valid_node_congr filter { filter with output_coordinates_data := coord } i
      hi hpos rfl rfl rfl rfl rfl hc

theorem anchor_at_example (score coord : Nat → ℚ) (k : Nat) (hk : k < ANCHORS_WIDTH) :
    reference_anchors[k]? = some (anchor_at (example_filter score coord) k) := by
  have h := write_all_anchors_mid reference_anchors
    { anchors := fun _ => (0, 0), pos := 0 } k (by rw [reference_anchors_length]; exact hk)
  rw [← generateAnchors_loops_eq] at h
  simpa [anchor_at, example_filter] using h

theorem reference_anchors_two : reference_anchors[2]? = some (12, 4) := by
  have e : List.range 16 = 0 :: 1 :: (List.range 14).map (fun n => n + 2) := by decide
  simp only [reference_anchors, reference_grid, ceil_128_8, e, List.flatMap_cons]
  norm_num [List.replicate]

/-- C10 at a concrete input: anchor 2 wins, its coordinate row starts
`(1, 2, 30, 40)` and its anchor centre is `(12, 4)`, so the node written is
`(13, 6, 30, 40)`. -/
theorem calcRect_pushes_decoded_witness :
    (calcRect_loop (example_filter scores_tie coords_example).output_score_data).1
      = ((2 : Nat) : Int) ∧ 0 < 2 ∧
    (calcRect (example_filter scores_tie coords_example)).boxes
        (calcRect (example_filter scores_tie coords_example)).box_list
      = { face_center_x := 13, face_center_y := 6, face_width := 30, face_height := 40 } :=
  have hi : (calcRect_loop (example_filter scores_tie coords_example).output_score_data).1
      = ((2 : Nat) : Int) := by
    have e : (example_filter scores_tie coords_example).output_score_data = scores_tie := rfl
    rw [e, calcRect_loop_scores_tie]
    rfl
  ⟨hi, by decide, by
    rw [(calcRect_pushes_decoded (example_filter scores_tie coords_example) 2 hi
      (by decide)).2.1]
    have a2 : anchor_at (example_filter scores_tie coords_example) 2 = (12, 4) := by
      have h := anchor_at_example scores_tie coords_example 2 (by decide)
      rw [reference_anchors_two] at h
      exact (Option.some.inj h).symm
    rw [a2]
    have c : (example_filter scores_tie coords_example).output_coordinates_data
        = coords_example := rfl
    have xb : (example_filter scores_tie coords_example).x_bias = 0 := rfl
    have yb : (example_filter scores_tie coords_example).y_bias = 0 := rfl
    rw [c, xb, yb]
    norm_num [coords_example]⟩

end CircleAvatar

/-! ## The mask threshold -/

namespace BackgroundMask

theorem mask_step_apply (p : Nat → ℚ) (c : ℚ) (tex : Nat → Nat) (m i : Nat) :
    mask_step p c tex m i =
      if i = m then (if p m < c then 0 else float_to_uint8 (255 * p m)) else tex i := by
  unfold mask_step
  by_cases him : i = m
  · subst him
    rw [if_pos rfl]
    split_ifs <;> simp
  · rw [if_neg him]
    split_ifs <;> simp [Function.update, him]

theorem for_loop_mask_step (p : Nat → ℚ) (c : ℚ) (tex : Nat → Nat) (n i : Nat) :
    for_loop (mask_step p c) tex n i =
      if i < n then (if p i < c then 0 else float_to_uint8 (255 * p i)) else tex i := by
  induction n with
  | zero => simp [for_loop]
  | succ m ih =>
    have e : for_loop (mask_step p c) tex (m + 1)
        = mask_step p c (for_loop (mask_step p c) tex m) m := rfl
    rw [e, mask_step_apply, ih]
    by_cases him : i = m
    · subst him
      simp
    · rw [if_neg him]
      by_cases hlt : i < m
      · have h2 : i < m + 1 := by omega
        simp only [hlt, h2, if_true]
      · have h2 : ¬ i < m + 1 := by omega
        simp only [hlt, h2, if_false]

theorem mask_loop_apply (p : Nat → ℚ) (c : ℚ) (tex : Nat → Nat) (i : Nat)
    (hi : i < TFLITE_HEIGHT * TFLITE_WIDTH) :
    mask_loop p c tex i = if p i < c then 0 else float_to_uint8 (255 * p i) := by
  unfold mask_loop
  rw [for_loop_mask_step, if_pos hi]

theorem float_to_uint8_unit (x : ℚ) (h0 : 0 ≤ x) (h1 : x ≤ 1) :
    (float_to_uint8 (255 * x) : Int) = ⌊255 * x⌋ := by
  have hx : (0 : ℚ) ≤ 255 * x := by positivity
  have hf0 : 0 ≤ ⌊255 * x⌋ := Int.floor_nonneg.mpr hx
  have hf1 : ⌊255 * x⌋ ≤ 255 := by
    have : ⌊255 * x⌋ ≤ ⌊(255 : ℚ)⌋ := Int.floor_le_floor (by linarith)
    simpa using this
  unfold float_to_uint8 float_to_int
  rw [if_pos hx]
  omega

theorem float_to_uint8_999 : float_to_uint8 (255 * (999 / 1000)) = 254 := by
  have h : ⌊(255 : ℚ) * (999 / 1000)⌋ = 254 := by
    rw [Int.floor_eq_iff]; norm_num
  unfold float_to_uint8 float_to_int
  rw [if_pos (by norm_num), h]
  rfl

theorem float_to_uint8_9 : float_to_uint8 (255 * (9 / 10)) = 229 := by
  have h : ⌊(255 : ℚ) * (9 / 10)⌋ = 229 := by
    rw [Int.floor_eq_iff]; norm_num
  unfold float_to_uint8 float_to_int
  rw [if_pos (by norm_num), h]
  rfl

theorem float_to_uint8_8 : float_to_uint8 (255 * (8 / 10)) = 204 := by
  have h : ⌊(255 : ℚ) * (8 / 10)⌋ = 204 := by
    rw [Int.floor_eq_iff]; norm_num
  unfold float_to_uint8 float_to_int
  rw [if_pos (by norm_num), h]
  rfl

/-- C6 as stated fails: probability 0.999 at cutoff 0.8 gives byte 254 while
`round (255 * 0.999) = round 254.745 = 255`, and probability 0.9 gives byte
229 while `round 229.5 = 230`. The conversion `(uint8_t)` discards the
fraction. -/
theorem mask_byte_not_rounded :
    ((0 : ℚ) ≤ 999 / 1000 ∧ (999 / 1000 : ℚ) ≤ 1 ∧ ¬ (999 / 1000 : ℚ) < 8 / 10) ∧
    mask_loop (prob_const (999 / 1000)) (8 / 10) texture_zero 0 = 254 ∧
    round ((255 : ℚ) * (999 / 1000)) = 255 ∧
    (mask_loop (prob_const (999 / 1000)) (8 / 10) texture_zero 0 : Int)
      ≠ round ((255 : ℚ) * prob_const (999 / 1000) 0) ∧
    mask_loop (prob_const (9 / 10)) (8 / 10) texture_zero 0 = 229 ∧
    round ((255 : ℚ) * (9 / 10)) = 230 := by
  have h999 : mask_loop (prob_const (999 / 1000)) (8 / 10) texture_zero 0 = 254 := by
    rw [mask_loop_apply _ _ _ 0 (by decide)]
    unfold prob_const
    rw [if_neg (by norm_num), float_to_uint8_999]
  have h9 : mask_loop (prob_const (9 / 10)) (8 / 10) texture_zero 0 = 229 := by
    rw [mask_loop_apply _ _ _ 0 (by decide)]
    unfold prob_const
    rw [if_neg (by norm_num), float_to_uint8_9]
  have r999 : round ((255 : ℚ) * (999 / 1000)) = 255 := by
    rw [round_eq, Int.floor_eq_iff]; norm_num
  have r9 : round ((255 : ℚ) * (9 / 10)) = 230 := by
    rw [round_eq, Int.floor_eq_iff]; norm_num
  refine ⟨⟨by norm_num, by norm_num, by norm_num⟩, h999, r999, ?_, h9, r9⟩
  rw [h999]
  unfold prob_const
  rw [r999]
  decide

/-- C6 amended: for a probability in `[0, 1]` the byte written for pixel `i`
is 0 when the probability is below the cutoff and otherwise the integer part
`floor (255 * probability)`. -/
theorem mask_byte_floor (p : Nat → ℚ) (c : ℚ) (tex : Nat → Nat) (i : Nat)
    (hi : i < TFLITE_HEIGHT * TFLITE_WIDTH) (h0 : 0 ≤ p i) (h1 : p i ≤ 1) :
    (mask_loop p c tex i : Int) = if p i < c then 0 else ⌊255 * p i⌋ := by
  rw [mask_loop_apply p c tex i hi]
  split_ifs
  · rfl
  · exact float_to_uint8_unit (p i) h0 h1

/-- C6 amended, at probability 0.999 and cutoff 0.8: the byte is 254. -/
theorem mask_byte_floor_witness :
    (0 < TFLITE_HEIGHT * TFLITE_WIDTH ∧ (0 : ℚ) ≤ prob_const (999 / 1000) 0 ∧
      prob_const (999 / 1000) 0 ≤ 1) ∧
    (mask_loop (prob_const (999 / 1000)) (8 / 10) texture_zero 0 : Int) = 254 :=
  have h0 : (0 : ℚ) ≤ prob_const (999 / 1000) 0 := by unfold prob_const; norm_num
  have h1 : prob_const (999 / 1000) 0 ≤ 1 := by unfold prob_const; norm_num
  ⟨⟨by decide, h0, h1⟩, by
    rw [mask_byte_floor (prob_const (999 / 1000)) (8 / 10) texture_zero 0 (by decide) h0 h1]
    unfold prob_const
    rw [if_neg (by norm_num), Int.floor_eq_iff]
    norm_num⟩

/-- C7: the cutoff comparison is strict. A pixel whose probability is below
the cutoff gets byte 0; a pixel whose probability equals the cutoff is not
zeroed and gets the converted value, 204 for 0.8; probability 0.79 at cutoff
0.8 gives 0, and a map of all 0.5 at cutoff 0.8 gives 0 at every one of the
`256 * 256` pixels. -/
theorem mask_cutoff_strict (p : Nat → ℚ) (c : ℚ) (tex : Nat → Nat) (i : Nat)
    (hi : i < TFLITE_HEIGHT * TFLITE_WIDTH) :
    (p i < c → mask_loop p c tex i = 0) ∧
    (p i = c → mask_loop p c tex i = float_to_uint8 (255 * c)) ∧
    mask_loop (prob_const (8 / 10)) (8 / 10) tex i = 204 ∧
    mask_loop (prob_const (79 / 100)) (8 / 10) tex i = 0 ∧
    mask_loop (prob_const (1 / 2)) (8 / 10) tex i = 0 ∧
    TFLITE_HEIGHT * TFLITE_WIDTH = 256 * 256 := by
  refine ⟨?_, ?_, ?_, ?_, ?_, rfl⟩
  · intro h
    rw [mask_loop_apply p c tex i hi, if_pos h]
  · intro h
    rw [mask_loop_apply p c tex i hi, if_neg (by rw [h]; exact lt_irrefl c), h]
  · rw [mask_loop_apply _ _ tex i hi]
    unfold prob_const
    rw [if_neg (lt_irrefl _), float_to_uint8_8]
  · rw [mask_loop_apply _ _ tex i hi]
    unfold prob_const
    rw [if_pos (by norm_num)]
  · rw [mask_loop_apply _ _ tex i hi]
    unfold prob_const
    rw [if_pos (by norm_num)]

/-- C7 at the last pixel of a zeroed texture: probability 0.5 below the
cutoff 0.8 gives 0, probability 0.8 at the cutoff 0.8 gives 204. -/
theorem mask_cutoff_strict_witness :
    65535 < TFLITE_HEIGHT * TFLITE_WIDTH ∧ prob_const (1 / 2) 65535 < 8 / 10 ∧
    mask_loop (prob_const (1 / 2)) (8 / 10) texture_zero 65535 = 0 ∧
    mask_loop (prob_const (8 / 10)) (8 / 10) texture_zero 65535 = 204 :=
  have hlt : prob_const (1 / 2) 65535 < 8 / 10 := by unfold prob_const; norm_num
  ⟨by decide, hlt,
    (mask_cutoff_strict (prob_const (1 / 2)) (8 / 10) texture_zero 65535 (by decide)).1 hlt,
    (mask_cutoff_strict (prob_const (1 / 2)) (8 / 10) texture_zero 65535 (by decide)).2.2.1⟩

end BackgroundMask

/-! ## The UYVY mirror -/

namespace BackgroundMask

theorem swap13_lt (b : Nat) (h : b < 4) : swap13 b < 4 := by
  unfold swap13; split_ifs <;> omega

theorem swap13_swap13 (b : Nat) : swap13 (swap13 b) = b := by
  unfold swap13; split_ifs <;> omega

theorem swap_bytes_1_3_src (d : Nat → Nat) (w : Nat) :
    swap_bytes_1_3 d w = fun a => d (if a / 4 = w then 4 * w + swap13 (a % 4) else a) := by
  funext a
  simp only [swap_bytes_1_3, swap13]
  split_ifs <;> first
    | rfl
    | (exfalso; omega)
    | (congr 1; omega)

theorem mirror_step_src (d : Nat → Nat) (p q : Nat) (hpq : p ≠ q) :
    swap_bytes_1_3 (swap_bytes_1_3 (swap_words d p q) p) q = fun a => d (step_src p q a) := by
  rw [swap_bytes_1_3_src, swap_bytes_1_3_src]
  funext a
  have hb := swap13_lt (a % 4) (Nat.mod_lt _ (by decide))
  simp only [swap_words, step_src]
  by_cases hq : a / 4 = q
  · have e1 : (4 * q + swap13 (a % 4)) / 4 = q := by omega
    have e2 : (4 * q + swap13 (a % 4)) % 4 = swap13 (a % 4) := by omega
    have hp' : ¬ q = p := fun h => hpq h.symm
    simp only [hq, if_true, e1, e2, hp', if_false]
  · by_cases hp : a / 4 = p
    · have e1 : (4 * p + swap13 (a % 4)) / 4 = p := by omega
      have e2 : (4 * p + swap13 (a % 4)) % 4 = swap13 (a % 4) := by omega
      simp only [hp, hpq, if_true, e1, e2, if_false]
    · simp only [hq, hp, if_false]

theorem mirror_step_eq (width i : Nat) (d : Nat → Nat) (j : Nat) (hj : j < width / 4) :
    mirror_step width i d j
      = fun a => d (step_src (width / 2 * i + j) (width / 2 * i + width / 2 - 1 - j) a) := by
  have hpq : width / 2 * i + j ≠ width / 2 * i + width / 2 - 1 - j := by
    generalize width / 2 * i = base
    omega
  unfold mirror_step
  simp only [if_pos hpq]
  exact mirror_step_src d _ _ hpq

theorem row_src_step (base n m a : Nat) (hm : 2 * (m + 1) ≤ n) :
    row_src base n m (step_src (base + m) (base + n - 1 - m) a) = row_src base n (m + 1) a := by
  have hb := swap13_lt (a % 4) (Nat.mod_lt _ (by decide))
  have hbb := swap13_swap13 (a % 4)
  unfold step_src
  by_cases hp : a / 4 = base + m
  · have e1 : (4 * (base + n - 1 - m) + swap13 (a % 4)) / 4 = base + n - 1 - m := by omega
    have e2 : (4 * (base + n - 1 - m) + swap13 (a % 4)) % 4 = swap13 (a % 4) := by omega
    rw [if_pos hp]
    unfold row_src
    rw [e1, e2, if_neg (by omega), if_pos (by omega)]
    omega
  · rw [if_neg hp]
    by_cases hq : a / 4 = base + n - 1 - m
    · have e1 : (4 * (base + m) + swap13 (a % 4)) / 4 = base + m := by omega
      have e2 : (4 * (base + m) + swap13 (a % 4)) % 4 = swap13 (a % 4) := by omega
      rw [if_pos hq]
      unfold row_src
      rw [e1, e2, if_neg (by omega), if_pos (by omega)]
      omega
    · rw [if_neg hq]
      unfold row_src
      by_cases hc : (base ≤ a / 4 ∧ a / 4 < base + m) ∨ (base + n - m ≤ a / 4 ∧ a / 4 < base + n)
      · rw [if_pos hc, if_pos (by omega)]
      · rw [if_neg hc, if_neg (by omega)]

theorem row_src_zero (base n a : Nat) : row_src base n 0 a = a := by
  unfold row_src
  rw [if_neg (by omega)]

theorem for_loop_mirror_step (width i : Nat) (d : Nat → Nat) (m : Nat) (hm : m ≤ width / 4) :
    for_loop (mirror_step width i) d m
      = fun a => d (row_src (width / 2 * i) (width / 2) m a) := by
  induction m with
  | zero =>
    funext a
    rw [row_src_zero]
    rfl
  | succ k ih =>
    have e : for_loop (mirror_step width i) d (k + 1)
        = mirror_step width i (for_loop (mirror_step width i) d k) k := rfl
    rw [e, mirror_step_eq width i _ k (by omega), ih (by omega)]
    funext a
    have h2 : 2 * (k + 1) ≤ width / 2 := by omega
    exact congrArg d (row_src_step (width / 2 * i) (width / 2) k a h2)

theorem mirror_uyvy_src (width : Nat) (d : Nat → Nat) (h : Nat) :
    mirror_uyvy width h d = fun a => d (frame_src (width / 2) (width / 4) h a) := by
  unfold mirror_uyvy
  induction h with
  | zero => rfl
  | succ k ih =>
    have e : for_loop (fun (d : Nat → Nat) (i : Nat) => for_loop (mirror_step width i) d (width / 4))
          d (k + 1)
        = for_loop (mirror_step width k)
            (for_loop
              (fun (d : Nat → Nat) (i : Nat) => for_loop (mirror_step width i) d (width / 4)) d k)
            (width / 4) := rfl
    rw [e, for_loop_mirror_step width k _ (width / 4) (Nat.le_refl _), ih]
    rfl

theorem row_src_outside (base n m a : Nat) (hm : 2 * m ≤ n)
    (h : a < 4 * base ∨ 4 * (base + n) ≤ a) :
    row_src base n m a = a := by
  unfold row_src
  rw [if_neg (by omega)]

theorem row_src_inside (base n m a : Nat) (h1 : 4 * base ≤ a) (h2 : a < 4 * (base + n)) :
    4 * base ≤ row_src base n m a ∧ row_src base n m a < 4 * (base + n) := by
  have hb := swap13_lt (a % 4) (Nat.mod_lt _ (by decide))
  unfold row_src
  split_ifs <;> omega

theorem row_src_row_src (base n m a : Nat) (hm : 2 * m ≤ n) :
    row_src base n m (row_src base n m a) = a := by
  have hb := swap13_lt (a % 4) (Nat.mod_lt _ (by decide))
  have hbb := swap13_swap13 (a % 4)
  by_cases hc : (base ≤ a / 4 ∧ a / 4 < base + m) ∨ (base + n - m ≤ a / 4 ∧ a / 4 < base + n)
  · have e0 : row_src base n m a = 4 * (base + (base + n - 1 - a / 4)) + swap13 (a % 4) := by
      unfold row_src
      rw [if_pos hc]
    have e1 : (4 * (base + (base + n - 1 - a / 4)) + swap13 (a % 4)) / 4
        = base + (base + n - 1 - a / 4) := by omega
    have e2 : (4 * (base + (base + n - 1 - a / 4)) + swap13 (a % 4)) % 4 = swap13 (a % 4) := by
      omega
    rw [e0]
    unfold row_src
    rw [e1, e2, if_pos (by omega), hbb]
    omega
  · have e0 : row_src base n m a = a := by
      unfold row_src
      rw [if_neg hc]
    rw [e0, e0]

theorem frame_src_props (n m : Nat) (hm : 2 * m ≤ n) (h : Nat) :
    ∀ a, (4 * (n * h) ≤ a → frame_src n m h a = a) ∧
      (a < 4 * (n * h) → frame_src n m h a < 4 * (n * h)) ∧
      frame_src n m h (frame_src n m h a) = a := by
  induction h with
  | zero =>
    intro a
    exact ⟨fun _ => rfl, fun h0 => by omega, rfl⟩
  | succ k ih =>
    intro a
    have es : n * (k + 1) = n * k + n := Nat.mul_succ n k
    have ef : ∀ x, frame_src n m (k + 1) x = frame_src n m k (row_src (n * k) n m x) :=
      fun _ => rfl
    rw [es]
    refine ⟨?_, ?_, ?_⟩
    · intro ha
      rw [ef, row_src_outside _ _ _ _ hm (Or.inr (by omega))]
      exact (ih a).1 (by omega)
    · intro ha
      rw [ef]
      by_cases hlow : a < 4 * (n * k)
      · rw [row_src_outside _ _ _ _ hm (Or.inl hlow)]
        have := (ih a).2.1 hlow
        omega
      · have hin := row_src_inside (n * k) n m a (by omega) (by omega)
        rw [(ih _).1 hin.1]
        omega
    · rw [ef, ef]
      by_cases hlow : a < 4 * (n * k)
      · rw [row_src_outside _ _ _ a hm (Or.inl hlow)]
        have hx := (ih a).2.1 hlow
        rw [row_src_outside _ _ _ _ hm (Or.inl hx)]
        exact (ih a).2.2
      · by_cases hhigh : 4 * (n * k + n) ≤ a
        · rw [row_src_outside _ _ _ a hm (Or.inr (by omega)), (ih a).1 (by omega),
            row_src_outside _ _ _ a hm (Or.inr (by omega)), (ih a).1 (by omega)]
        · have hin := row_src_inside (n * k) n m a (by omega) (by omega)
          rw [(ih _).1 hin.1, row_src_row_src _ _ _ _ hm, (ih a).1 (by omega)]

theorem mirror_uyvy_involutive (width height : Nat) (d : Nat → Nat) :
    mirror_uyvy width height (mirror_uyvy width height d) = d := by
  rw [mirror_uyvy_src, mirror_uyvy_src]
  funext a
  exact congrArg d ((frame_src_props (width / 2) (width / 4) (by omega) height a).2.2)

/-- C8: `mirror_inversion` applied twice gives back the frame, for every
width, height and format; a frame that is not UYVY, or has width 0, is already
unchanged by one application. -/
theorem mirror_inversion_involutive (frame : obs_source_frame) :
    mirror_inversion (mirror_inversion frame) = frame ∧
    (frame.format ≠ video_format.VIDEO_FORMAT_UYVY → mirror_inversion frame = frame) ∧
    (frame.width = 0 → mirror_inversion frame = frame) := by
  obtain ⟨w, h, fmt, d⟩ := frame
  refine ⟨?_, ?_, ?_⟩
  · by_cases hw : w = 0
    · simp [mirror_inversion, hw]
    · cases fmt with
      | VIDEO_FORMAT_UYVY => simp [mirror_inversion, hw, mirror_uyvy_involutive]
      | other tag => simp [mirror_inversion, hw]
  · intro hf
    cases fmt with
    | VIDEO_FORMAT_UYVY => exact absurd rfl hf
    | other tag => simp [mirror_inversion]
  · intro hw
    simp only at hw
    simp [mirror_inversion, hw]

/-- C9 (the code departs from the claim): for a UYVY row of six pixels the
middle word is left as it was, so after the call the luma of pixel 2 is the
old luma of pixel 2 (byte 5), not that of pixel 3 (byte 7), while pixel 0
does receive the luma of pixel 5. For a row of two pixels nothing is moved at
all. -/
theorem mirror_inversion_skips_middle :
    ((mirror_inversion uyvy_row6).data0 (luma_offset 6 0 0)
        = uyvy_row6.data0 (luma_offset 6 0 (6 - 1 - 0)) ∧
      (mirror_inversion uyvy_row6).data0 (luma_offset 6 0 2) = 5 ∧
      uyvy_row6.data0 (luma_offset 6 0 (6 - 1 - 2)) = 7 ∧
      (mirror_inversion uyvy_row6).data0 (luma_offset 6 0 2)
        ≠ uyvy_row6.data0 (luma_offset 6 0 (6 - 1 - 2))) ∧
    ((mirror_inversion uyvy_row2).data0 (luma_offset 2 0 0) = 1 ∧
      uyvy_row2.data0 (luma_offset 2 0 (2 - 1 - 0)) = 3) := by
  decide

theorem frame_src_row (n m : Nat) (hm : 2 * m ≤ n) (h i a : Nat) (hi : i < h)
    (h1 : 4 * (n * i) ≤ a) (h2 : a < 4 * (n * i + n)) :
    frame_src n m h a = row_src (n * i) n m a := by
  induction h with
  | zero => omega
  | succ k ih =>
    have ef : frame_src n m (k + 1) a = frame_src n m k (row_src (n * k) n m a) := rfl
    rw [ef]
    rcases Nat.lt_succ_iff_lt_or_eq.mp hi with hlt | heq
    · have hle : n * (i + 1) ≤ n * k := Nat.mul_le_mul_left n hlt
      have es : n * (i + 1) = n * i + n := Nat.mul_succ n i
      rw [row_src_outside _ _ _ _ hm (Or.inl (by omega))]
      exact ih hlt
    · subst heq
      have hin := row_src_inside (n * i) n m a h1 h2
      exact (frame_src_props n m hm i _).1 hin.1

/-- When the width is a multiple of 4 the mirror is the horizontal flip of
every row: the luma of pixel `j` becomes the old luma of pixel `width - 1 - j`
and the chroma bytes of group `g` become those of group `width / 2 - 1 - g`. -/
theorem mirror_inversion_flip_of_four_dvd (frame : obs_source_frame)
    (hf : frame.format = video_format.VIDEO_FORMAT_UYVY) (hw : frame.width % 4 = 0)
    (i : Nat) (hi : i < frame.height) :
    (∀ j, j < frame.width →
      (mirror_inversion frame).data0 (luma_offset frame.width i j)
        = frame.data0 (luma_offset frame.width i (frame.width - 1 - j))) ∧
    (∀ g, g < frame.width / 2 →
      (mirror_inversion frame).data0 (4 * (frame.width / 2 * i + g))
        = frame.data0 (4 * (frame.width / 2 * i + (frame.width / 2 - 1 - g))) ∧
      (mirror_inversion frame).data0 (4 * (frame.width / 2 * i + g) + 2)
        = frame.data0 (4 * (frame.width / 2 * i + (frame.width / 2 - 1 - g)) + 2)) := by
  obtain ⟨w, h, fmt, d⟩ := frame
  simp only at hf hw hi ⊢
  subst hf
  have key : ∀ a, 4 * (w / 2 * i) ≤ a → a < 4 * (w / 2 * i + w / 2) →
      (mirror_inversion ⟨w, h, video_format.VIDEO_FORMAT_UYVY, d⟩).data0 a
        = d (4 * (w / 2 * i + (w / 2 * i + w / 2 - 1 - a / 4)) + swap13 (a % 4)) := by
    intro a h1 h2
    have hw0 : w ≠ 0 := by
      intro h0
      subst h0
      omega
    have e : (mirror_inversion ⟨w, h, video_format.VIDEO_FORMAT_UYVY, d⟩).data0
        = mirror_uyvy w h d := by
      simp [mirror_inversion, hw0]
    rw [e, mirror_uyvy_src]
    show d (frame_src (w / 2) (w / 4) h a) = _
    rw [frame_src_row (w / 2) (w / 4) (by omega) h i a hi h1 h2]
    unfold row_src
    rw [if_pos (by omega)]
  refine ⟨?_, ?_⟩
  · intro j hj
    rw [key _ (by unfold luma_offset; omega) (by unfold luma_offset; omega)]
    congr 1
    unfold luma_offset swap13
    generalize w / 2 * i = base
    split_ifs <;> omega
  · intro g hg
    constructor
    · rw [key _ (by omega) (by omega)]
      congr 1
      unfold swap13
      generalize w / 2 * i = base
      split_ifs <;> omega
    · rw [key _ (by omega) (by omega)]
      congr 1
      unfold swap13
      generalize w / 2 * i = base
      split_ifs <;> omega

end BackgroundMask

/-! ## The face-box entry point -/

namespace CircleAvatar

open BackgroundMask (obs_source_frame video_format video_scale_info)

theorem normalize_step_apply (b : Nat → Nat) (t : Nat → ℚ) (i k : Nat) :
    normalize_step b t i k =
      if k / 3 = i then (b (3 * i + (2 - k % 3)) : ℚ) / 255 else t k := by
  unfold normalize_step
  by_cases h0 : k = i * 3
  · subst h0
    have e : i * 3 / 3 = i := by omega
    have e2 : 3 * i + (2 - i * 3 % 3) = i * 3 + 2 := by omega
    rw [Function.update_same, if_pos e, e2]
  · rw [Function.update_noteq h0]
    by_cases h1 : k = i * 3 + 1
    · subst h1
      have e : (i * 3 + 1) / 3 = i := by omega
      have e2 : 3 * i + (2 - (i * 3 + 1) % 3) = i * 3 + 1 := by omega
      rw [Function.update_same, if_pos e, e2]
    · rw [Function.update_noteq h1]
      by_cases h2 : k = i * 3 + 2
      · subst h2
        have e : (i * 3 + 2) / 3 = i := by omega
        have e2 : 3 * i + (2 - (i * 3 + 2) % 3) = i * 3 := by omega
        rw [Function.update_same, if_pos e, e2]
      · rw [Function.update_noteq h2, if_neg (by omega)]

theorem for_loop_normalize_step (b : Nat → Nat) (t : Nat → ℚ) (n k : Nat) :
    for_loop (normalize_step b) t n k =
      if k < 3 * n then (b (3 * (k / 3) + (2 - k % 3)) : ℚ) / 255 else t k := by
  induction n with
  | zero => simp [for_loop]
  | succ m ih =>
    have e : for_loop (normalize_step b) t (m + 1)
        = normalize_step b (for_loop (normalize_step b) t m) m := rfl
    rw [e, normalize_step_apply, ih]
    by_cases hm : k / 3 = m
    · have h2 : k < 3 * (m + 1) := by omega
      simp only [hm, h2, if_true]
    · simp only [hm, if_false]
      by_cases hlt : k < 3 * m
      · have h2 : k < 3 * (m + 1) := by omega
        simp only [hlt, h2, if_true]
      · have h2 : ¬ k < 3 * (m + 1) := by omega
        simp only [hlt, h2, if_false]

theorem normalize_loop_apply (b : Nat → Nat) (t : Nat → ℚ) (k : Nat)
    (hk : k < 3 * (TFLITE_HEIGHT * TFLITE_WIDTH)) :
    normalize_loop b t k = (b (3 * (k / 3) + (2 - k % 3)) : ℚ) / 255 := by
  unfold normalize_loop
  rw [for_loop_normalize_step, if_pos hk]

theorem byte_unit (x : Nat) (hx : x ≤ 255) : (0 : ℚ) ≤ (x : ℚ) / 255 ∧ (x : ℚ) / 255 ≤ 1 := by
  have h : (x : ℚ) ≤ 255 := by exact_mod_cast hx
  constructor
  · positivity
  · rw [div_le_one (by norm_num)]
    exact h

theorem prepare_decoder_rgb (filter : circle_avatar_video_data) :
    (prepare_decoder filter).rgb_int = filter.rgb_int ∧
    (prepare_decoder filter).rgb_f = filter.rgb_f ∧
    (prepare_decoder filter).face_size_scale = filter.face_size_scale := by
  unfold prepare_decoder
  dsimp only
  split_ifs <;> exact ⟨rfl, rfl, rfl⟩

theorem before_calcRect_rgb (c : face_collaborators) (filter : circle_avatar_video_data)
    (frame : obs_source_frame) :
    (before_calcRect c filter frame).rgb_int
        = (convertFrameToBGR c frame (update_dimensions filter frame)).rgb_int ∧
    (before_calcRect c filter frame).rgb_f
        = (normalize_tensor (convertFrameToBGR c frame (update_dimensions filter frame))).rgb_f := by
  unfold before_calcRect
  have h := prepare_decoder_rgb
    (normalize_tensor (convertFrameToBGR c frame (update_dimensions filter frame)))
  exact ⟨h.1, h.2.1⟩

theorem circle_avatar_video_rgb (c : face_collaborators) (filter : circle_avatar_video_data)
    (frame : obs_source_frame) :
    (circle_avatar_video c filter frame).1.rgb_int
        = some (c.video_scaler_scale
            ((update_dimensions filter frame).scalerToBGR.getD
              { format := frame.format
                width := (update_dimensions filter frame).frame_width
                height := (update_dimensions filter frame).frame_height })
            frame ((update_dimensions filter frame).rgb_int.getD fun _ => 0)) ∧
    (circle_avatar_video c filter frame).1.rgb_f
        = some (normalize_loop
            (((circle_avatar_video c filter frame).1.rgb_int).getD fun _ => 0)
            ((update_dimensions filter frame).rgb_f.getD fun _ => 0)) := by
  have h := before_calcRect_rgb c filter frame
  have e1 : (circle_avatar_video c filter frame).1.rgb_int
      = (before_calcRect c filter frame).rgb_int := rfl
  have e2 : (circle_avatar_video c filter frame).1.rgb_f
      = (before_calcRect c filter frame).rgb_f := rfl
  rw [e1, e2, h.1, h.2]
  exact ⟨rfl, rfl⟩

theorem circle_avatar_video_fields (c : face_collaborators) (filter : circle_avatar_video_data)
    (frame : obs_source_frame) :
    (circle_avatar_video c filter frame).2 = frame ∧
    (circle_avatar_video c filter frame).1.decoder
      = calcRect (before_calcRect c filter frame).decoder ∧
    (circle_avatar_video c filter frame).1.faceCenter
      = some (publish_face (calcRect (before_calcRect c filter frame).decoder).current_box
          (before_calcRect c filter frame).face_size_scale frame).1 ∧
    (circle_avatar_video c filter frame).1.faceSize
      = some (publish_face (calcRect (before_calcRect c filter frame).decoder).current_box
          (before_calcRect c filter frame).face_size_scale frame).2 ∧
    (circle_avatar_video c filter frame).1.ring_built
      = (before_calcRect c filter frame).ring_built := by
  refine ⟨rfl, ?_, rfl, rfl, rfl⟩
  simp only [circle_avatar_video]

theorem update_dimensions_face_size_scale (filter : circle_avatar_video_data)
    (frame : obs_source_frame) :
    (update_dimensions filter frame).face_size_scale = filter.face_size_scale ∧
    (update_dimensions filter frame).decoder = filter.decoder ∧
    (update_dimensions filter frame).ring_built = filter.ring_built := by
  unfold update_dimensions
  split_ifs <;> exact ⟨rfl, rfl, rfl⟩

theorem before_calcRect_face_size_scale (c : face_collaborators)
    (filter : circle_avatar_video_data) (frame : obs_source_frame) :
    (before_calcRect c filter frame).face_size_scale = filter.face_size_scale := by
  unfold before_calcRect
  have h := (prepare_decoder_rgb
    (normalize_tensor (convertFrameToBGR c frame (update_dimensions filter frame)))).2.2
  have e : (tflite_get_out c (prepare_decoder (normalize_tensor
      (convertFrameToBGR c frame (update_dimensions filter frame))))).face_size_scale
      = (prepare_decoder (normalize_tensor
      (convertFrameToBGR c frame (update_dimensions filter frame)))).face_size_scale := rfl
  rw [e, h]
  exact (update_dimensions_face_size_scale filter frame).1

theorem publish_face_invalid (cur : box) (s : ℚ) (frame : obs_source_frame)
    (h : cur.face_center_x / 128 < 0 ∨ cur.face_center_y / 128 < 0 ∨ cur.face_width / 128 ≤ 0
      ∨ cur.face_height / 128 ≤ 0) :
    publish_face cur s frame
      = ((1 / 2, 1 / 2),
        ((frame.height : ℚ) / (frame.width : ℚ), (frame.height : ℚ) / (frame.width : ℚ))) := by
  unfold publish_face
  have e1 : ((TFLITE_WIDTH : Nat) : ℚ) = 128 := by norm_num [TFLITE_WIDTH]
  have e2 : ((TFLITE_HEIGHT : Nat) : ℚ) = 128 := by norm_num [TFLITE_HEIGHT]
  simp only [e1, e2]
  rw [if_pos h]

theorem publish_face_valid (cur : box) (s : ℚ) (frame : obs_source_frame)
    (h : ¬ (cur.face_center_x / 128 < 0 ∨ cur.face_center_y / 128 < 0 ∨ cur.face_width / 128 ≤ 0
      ∨ cur.face_height / 128 ≤ 0)) :
    publish_face cur s frame
      = ((cur.face_center_x / 128, cur.face_center_y / 128),
        (cur.face_width / 128 * s, cur.face_height / 128 * s)) := by
  unfold publish_face
  have e1 : ((TFLITE_WIDTH : Nat) : ℚ) = 128 := by norm_num [TFLITE_WIDTH]
  have e2 : ((TFLITE_HEIGHT : Nat) : ℚ) = 128 := by norm_num [TFLITE_HEIGHT]
  simp only [e1, e2]
  rw [if_neg h]

/-- C12: the published geometry after `circle_avatar_video`. When the output
box fails the test of line 405 (centre x or y over 128 negative, or width or
height over 128 not positive; the box `(-1,-1,-1,-1)` does) the published
centre is `(0.5, 0.5)` and the size is `frame height / frame width` twice;
otherwise the centre is the box centre over 128 and the size is the box size
over 128 times `face_size_scale`. -/
theorem circle_avatar_video_publishes (c : face_collaborators)
    (filter : circle_avatar_video_data) (frame : obs_source_frame) :
    ((circle_avatar_video c filter frame).1.decoder.current_box.face_center_x / 128 < 0 ∨
        (circle_avatar_video c filter frame).1.decoder.current_box.face_center_y / 128 < 0 ∨
        (circle_avatar_video c filter frame).1.decoder.current_box.face_width / 128 ≤ 0 ∨
        (circle_avatar_video c filter frame).1.decoder.current_box.face_height / 128 ≤ 0 →
      (circle_avatar_video c filter frame).1.faceCenter = some (1 / 2, 1 / 2) ∧
      (circle_avatar_video c filter frame).1.faceSize
        = some ((frame.height : ℚ) / (frame.width : ℚ),
            (frame.height : ℚ) / (frame.width : ℚ))) ∧
    (¬ ((circle_avatar_video c filter frame).1.decoder.current_box.face_center_x / 128 < 0 ∨
        (circle_avatar_video c filter frame).1.decoder.current_box.face_center_y / 128 < 0 ∨
        (circle_avatar_video c filter frame).1.decoder.current_box.face_width / 128 ≤ 0 ∨
        (circle_avatar_video c filter frame).1.decoder.current_box.face_height / 128 ≤ 0) →
      (circle_avatar_video c filter frame).1.faceCenter
        = some ((circle_avatar_video c filter frame).1.decoder.current_box.face_center_x / 128,
            (circle_avatar_video c filter frame).1.decoder.current_box.face_center_y / 128) ∧
      (circle_avatar_video c filter frame).1.faceSize
        = some ((circle_avatar_video c filter frame).1.decoder.current_box.face_width / 128
              * filter.face_size_scale,
            (circle_avatar_video c filter frame).1.decoder.current_box.face_height / 128
              * filter.face_size_scale)) ∧
    ((circle_avatar_video c filter frame).1.decoder.current_box
        = set_box_value (-1) (-1) (-1) (-1) →
      (circle_avatar_video c filter frame).1.faceCenter = some (1 / 2, 1 / 2) ∧
      (circle_avatar_video c filter frame).1.faceSize
        = some ((frame.height : ℚ) / (frame.width : ℚ),
            (frame.height : ℚ) / (frame.width : ℚ))) := by
  obtain ⟨-, hd, hc, hs, -⟩ := circle_avatar_video_fields c filter frame
  rw [hd, hc, hs, before_calcRect_face_size_scale]
  generalize (calcRect (before_calcRect c filter frame).decoder).current_box = cur
  refine ⟨?_, ?_, ?_⟩
  · intro h
    rw [publish_face_invalid cur _ frame h]
    exact ⟨rfl, rfl⟩
  · intro h
    rw [publish_face_valid cur _ frame h]
    exact ⟨rfl, rfl⟩
  · intro h
    have hinv : cur.face_center_x / 128 < 0 ∨ cur.face_center_y / 128 < 0
        ∨ cur.face_width / 128 ≤ 0 ∨ cur.face_height / 128 ≤ 0 := by
      rw [h]
      left
      norm_num [set_box_value]
    rw [publish_face_invalid cur _ frame hinv]
    exact ⟨rfl, rfl⟩

/-- C14: channel-order normalisation. After `circle_avatar_video` the tensor
`rgb_f` holds, for every pixel `i < 128 * 128` of the scaler's byte buffer
`rgb_int`, `t[3i] = b[3i+2] / 255`, `t[3i+1] = b[3i+1] / 255` and
`t[3i+2] = b[3i] / 255`, and every one of the `3 * 128 * 128 = 49152` elements
lies in `[0, 1]`. -/
theorem circle_avatar_video_normalizes (c : face_collaborators)
    (filter : circle_avatar_video_data) (frame : obs_source_frame)
    (hb : ∀ info fr old k, c.video_scaler_scale info fr old k ≤ 255)
    (i : Nat) (hi : i < TFLITE_HEIGHT * TFLITE_WIDTH) :
    ∃ (b : Nat → Nat) (t : Nat → ℚ),
      (circle_avatar_video c filter frame).1.rgb_int = some b ∧
      (circle_avatar_video c filter frame).1.rgb_f = some t ∧
      t (3 * i) = (b (3 * i + 2) : ℚ) / 255 ∧
      t (3 * i + 1) = (b (3 * i + 1) : ℚ) / 255 ∧
      t (3 * i + 2) = (b (3 * i) : ℚ) / 255 ∧
      ∀ k, k < 49152 → 0 ≤ t k ∧ t k ≤ 1 := by
  obtain ⟨h1, h2⟩ := circle_avatar_video_rgb c filter frame
  rw [h1] at h2
  refine ⟨_, _, h1, h2, ?_, ?_, ?_, ?_⟩
  · rw [normalize_loop_apply _ _ _ (by unfold TFLITE_HEIGHT TFLITE_WIDTH at *; omega)]
    have e : 3 * (3 * i / 3) + (2 - 3 * i % 3) = 3 * i + 2 := by omega
    simp only [Option.getD_some, e]
  · rw [normalize_loop_apply _ _ _ (by unfold TFLITE_HEIGHT TFLITE_WIDTH at *; omega)]
    have e : 3 * ((3 * i + 1) / 3) + (2 - (3 * i + 1) % 3) = 3 * i + 1 := by omega
    simp only [Option.getD_some, e]
  · rw [normalize_loop_apply _ _ _ (by unfold TFLITE_HEIGHT TFLITE_WIDTH at *; omega)]
    have e : 3 * ((3 * i + 2) / 3) + (2 - (3 * i + 2) % 3) = 3 * i := by omega
    simp only [Option.getD_some, e]
  · intro k hk
    rw [normalize_loop_apply _ _ _ (by unfold TFLITE_HEIGHT TFLITE_WIDTH; omega)]
    simp only [Option.getD_some]
    exact byte_unit _ (hb _ _ _ _)

/-- C14 at pixel 0, for a scaler that writes the byte `k % 256` at offset `k`,
the tracking state and the UYVY row of six pixels. -/
theorem circle_avatar_video_normalizes_witness :
    (∀ (info : video_scale_info) (fr : obs_source_frame) (old : Nat → Nat) (k : Nat),
      face_collaborators_example.video_scaler_scale info fr old k ≤ 255) ∧
    0 < TFLITE_HEIGHT * TFLITE_WIDTH ∧
    ∃ (b : Nat → Nat) (t : Nat → ℚ),
      (circle_avatar_video face_collaborators_example face_state_tracking
        BackgroundMask.uyvy_row6).1.rgb_int = some b ∧
      (circle_avatar_video face_collaborators_example face_state_tracking
        BackgroundMask.uyvy_row6).1.rgb_f = some t ∧
      t (3 * 0) = (b (3 * 0 + 2) : ℚ) / 255 ∧
      t (3 * 0 + 1) = (b (3 * 0 + 1) : ℚ) / 255 ∧
      t (3 * 0 + 2) = (b (3 * 0) : ℚ) / 255 ∧
      ∀ k, k < 49152 → 0 ≤ t k ∧ t k ≤ 1 :=
  have hb : ∀ (info : video_scale_info) (fr : obs_source_frame) (old : Nat → Nat) (k : Nat),
      face_collaborators_example.video_scaler_scale info fr old k ≤ 255 := by
    intro info fr old k
    show k % 256 ≤ 255
    omega
  ⟨hb, by decide,
    circle_avatar_video_normalizes face_collaborators_example face_state_tracking
      BackgroundMask.uyvy_row6 hb 0 (by decide)⟩

end CircleAvatar

/-! ## The history ring across frames -/

namespace CircleAvatar

open BackgroundMask (obs_source_frame video_format video_scale_info)

theorem calcRectInner_keeps (filter : circle_avatar_filter_data) (index : Nat) :
    (calcRectInner filter index).output_score_data = filter.output_score_data ∧
    (calcRectInner filter index).output_coordinates_data = filter.output_coordinates_data ∧
    (calcRectInner filter index).anchors = filter.anchors ∧
    (calcRectInner filter index).x_bias = filter.x_bias ∧
    (calcRectInner filter index).y_bias = filter.y_bias := by
  unfold calcRectInner
  dsimp only
  split_ifs <;> exact ⟨rfl, rfl, rfl, rfl, rfl⟩

theorem calcRect_keeps (filter : circle_avatar_filter_data) :
    (calcRect filter).output_score_data = filter.output_score_data ∧
    (calcRect filter).output_coordinates_data = filter.output_coordinates_data ∧
    (calcRect filter).anchors = filter.anchors ∧
    (calcRect filter).x_bias = filter.x_bias ∧
    (calcRect filter).y_bias = filter.y_bias := by
  rw [calcRect_eq]
  split_ifs
  · exact calcRectInner_keeps _ _
  · exact ⟨rfl, rfl, rfl, rfl, rfl⟩

theorem calcRect_box_list (filter : circle_avatar_filter_data) :
    (calcRect filter).box_list = box_next filter.box_list := by
  rw [calcRect_eq]
  split_ifs
  · rw [calcRectInner_box_list]
  · rfl

theorem calcRect_boxes (filter : circle_avatar_filter_data) :
    (calcRect filter).boxes
      = Function.update filter.boxes (box_next filter.box_list) (frame_decode filter) := by
  rw [calcRect_eq]
  unfold frame_decode
  split_ifs
  · rw [calcRectInner_boxes]
    rfl
  · rfl

theorem frame_decode_congr (f g : circle_avatar_filter_data)
    (hs : g.output_score_data = f.output_score_data)
    (hc : g.output_coordinates_data = f.output_coordinates_data)
    (ha : g.anchors = f.anchors) (hx : g.x_bias = f.x_bias) (hy : g.y_bias = f.y_bias) :
    frame_decode g = frame_decode f := by
  unfold frame_decode decoded_box anchor_at
  rw [hs, hc, ha, hx, hy]

theorem frame_decode_calcRect (filter : circle_avatar_filter_data) :
    frame_decode (calcRect filter) = frame_decode filter := by
  obtain ⟨h1, h2, h3, h4, h5⟩ := calcRect_keeps filter
  exact frame_decode_congr filter (calcRect filter) h1 h2 h3 h4 h5

theorem ring_of_congr (f g : circle_avatar_video_data) (hd : g.decoder = f.decoder)
    (hr : g.ring_built = f.ring_built) : ring_of g = ring_of f := by
  unfold ring_of
  rw [hd, hr]

theorem ring_of_built (f : circle_avatar_video_data) (h : f.ring_built = true) :
    (ring_of f).1 = f.decoder.box_list ∧ (ring_of f).2 = f.decoder.boxes := by
  unfold ring_of
  rw [if_pos h]
  exact ⟨rfl, rfl⟩

theorem prepare_decoder_ring (f : circle_avatar_video_data) :
    (prepare_decoder f).decoder.box_list = (ring_of f).1 ∧
    (prepare_decoder f).decoder.boxes = (ring_of f).2 ∧
    (prepare_decoder f).ring_built = true := by
  unfold prepare_decoder ring_of
  cases ha : f.decoder.anchors <;> cases hr : f.ring_built <;>
    simp [generateAnchors]

theorem before_calcRect_ring (c : face_collaborators) (filter : circle_avatar_video_data)
    (frame : obs_source_frame) :
    (before_calcRect c filter frame).decoder.box_list = (ring_of filter).1 ∧
    (before_calcRect c filter frame).decoder.boxes = (ring_of filter).2 ∧
    (before_calcRect c filter frame).ring_built = true := by
  have hX : ring_of (normalize_tensor (convertFrameToBGR c frame (update_dimensions filter frame)))
      = ring_of filter :=
    ring_of_congr filter _ (update_dimensions_face_size_scale filter frame).2.1
      (update_dimensions_face_size_scale filter frame).2.2
  have h := prepare_decoder_ring
    (normalize_tensor (convertFrameToBGR c frame (update_dimensions filter frame)))
  rw [hX] at h
  exact h

/-- One frame on the ring: the write position moves to the next node, that
node receives the box decoded from the outputs of this frame, the other two
nodes keep their boxes. -/
theorem circle_avatar_video_ring (c : face_collaborators) (filter : circle_avatar_video_data)
    (frame : obs_source_frame) :
    (circle_avatar_video c filter frame).1.decoder.box_list = box_next (ring_of filter).1 ∧
    (circle_avatar_video c filter frame).1.decoder.boxes
      = Function.update (ring_of filter).2 (box_next (ring_of filter).1)
          (frame_decode (circle_avatar_video c filter frame).1.decoder) ∧
    (ring_of (circle_avatar_video c filter frame).1).1
      = (circle_avatar_video c filter frame).1.decoder.box_list ∧
    (ring_of (circle_avatar_video c filter frame).1).2
      = (circle_avatar_video c filter frame).1.decoder.boxes := by
  obtain ⟨-, hd, -, -, hr⟩ := circle_avatar_video_fields c filter frame
  obtain ⟨b1, b2, b3⟩ := before_calcRect_ring c filter frame
  have hb := ring_of_built (circle_avatar_video c filter frame).1 (by rw [hr, b3])
  refine ⟨?_, ?_, hb.1, hb.2⟩
  · rw [hd, calcRect_box_list, b1]
  · rw [hd, calcRect_boxes, frame_decode_calcRect, b1, b2]

theorem circle_avatar_run_succ (c : face_collaborators) (frames : Nat → obs_source_frame)
    (init : circle_avatar_video_data) (n : Nat) :
    circle_avatar_run c frames init (n + 1)
      = (circle_avatar_video c (circle_avatar_run c frames init n) (frames n)).1 := rfl

theorem box_next_ne (p : Fin 3) : p ≠ box_next p ∧ p ≠ box_next (box_next p) := by
  unfold box_next
  fin_cases p <;> decide

theorem three_frames_ring (c : face_collaborators) (a0 : circle_avatar_video_data)
    (f0 f1 f2 : obs_source_frame) :
    (circle_avatar_video c (circle_avatar_video c (circle_avatar_video c a0 f0).1 f1).1 f2).1.decoder.boxes
        (circle_avatar_video c (circle_avatar_video c (circle_avatar_video c a0 f0).1 f1).1
          f2).1.decoder.box_list
      = frame_decode
          (circle_avatar_video c (circle_avatar_video c (circle_avatar_video c a0 f0).1 f1).1
            f2).1.decoder ∧
    (circle_avatar_video c (circle_avatar_video c (circle_avatar_video c a0 f0).1 f1).1 f2).1.decoder.boxes
        (circle_avatar_video c (circle_avatar_video c a0 f0).1 f1).1.decoder.box_list
      = frame_decode (circle_avatar_video c (circle_avatar_video c a0 f0).1 f1).1.decoder ∧
    (circle_avatar_video c (circle_avatar_video c (circle_avatar_video c a0 f0).1 f1).1 f2).1.decoder.boxes
        (circle_avatar_video c a0 f0).1.decoder.box_list
      = frame_decode (circle_avatar_video c a0 f0).1.decoder := by
  have h1 := circle_avatar_video_ring c a0 f0
  generalize (circle_avatar_video c a0 f0).1 = a1 at h1 ⊢
  have h2 := circle_avatar_video_ring c a1 f1
  generalize (circle_avatar_video c a1 f1).1 = a2 at h2 ⊢
  have h3 := circle_avatar_video_ring c a2 f2
  generalize (circle_avatar_video c a2 f2).1 = a3 at h3 ⊢
  obtain ⟨b1, x1, r1a, r1b⟩ := h1
  obtain ⟨b2, x2, r2a, r2b⟩ := h2
  obtain ⟨b3, x3, -, -⟩ := h3
  rw [r2a] at b3
  rw [r2a, r2b] at x3
  rw [r1a] at b2
  rw [r1a, r1b] at x2
  have n1 := box_next_ne a1.decoder.box_list
  have n2 := box_next_ne a2.decoder.box_list
  refine ⟨?_, ?_, ?_⟩
  · rw [x3, b3, Function.update_same]
  · rw [x3, Function.update_noteq n2.1, x2, b2, Function.update_same]
  · rw [x3, b2, Function.update_noteq n1.2, x2, Function.update_noteq n1.1, x1, b1,
      Function.update_same]

theorem two_frames_ring (c : face_collaborators) (a0 : circle_avatar_video_data)
    (f0 f1 : obs_source_frame) :
    (circle_avatar_video c (circle_avatar_video c a0 f0).1 f1).1.decoder.box_list
      = box_next (circle_avatar_video c a0 f0).1.decoder.box_list ∧
    ∀ j, j ≠ (circle_avatar_video c (circle_avatar_video c a0 f0).1 f1).1.decoder.box_list →
      (circle_avatar_video c (circle_avatar_video c a0 f0).1 f1).1.decoder.boxes j
        = (circle_avatar_video c a0 f0).1.decoder.boxes j := by
  have h1 := circle_avatar_video_ring c a0 f0
  generalize (circle_avatar_video c a0 f0).1 = a1 at h1 ⊢
  have h2 := circle_avatar_video_ring c a1 f1
  generalize (circle_avatar_video c a1 f1).1 = a2 at h2 ⊢
  obtain ⟨-, -, r1a, r1b⟩ := h1
  obtain ⟨b2, x2, -, -⟩ := h2
  rw [r1a] at b2
  rw [r1a, r1b] at x2
  refine ⟨b2, ?_⟩
  intro j hj
  rw [b2] at hj
  rw [x2, Function.update_noteq hj]

theorem before_calcRect_outputs (c : face_collaborators) (filter : circle_avatar_video_data)
    (frame : obs_source_frame) :
    (before_calcRect c filter frame).decoder.output_coordinates_data
      = (c.infer ((before_calcRect c filter frame).rgb_f.getD fun _ => 0)).1 ∧
    (before_calcRect c filter frame).decoder.output_score_data
      = (c.infer ((before_calcRect c filter frame).rgb_f.getD fun _ => 0)).2 :=
  ⟨rfl, rfl⟩

theorem circle_avatar_video_outputs (c : face_collaborators) (filter : circle_avatar_video_data)
    (frame : obs_source_frame) :
    (circle_avatar_video c filter frame).1.decoder.output_coordinates_data
      = (c.infer ((circle_avatar_video c filter frame).1.rgb_f.getD fun _ => 0)).1 ∧
    (circle_avatar_video c filter frame).1.decoder.output_score_data
      = (c.infer ((circle_avatar_video c filter frame).1.rgb_f.getD fun _ => 0)).2 := by
  obtain ⟨-, hd, -, -, -⟩ := circle_avatar_video_fields c filter frame
  have e2 : (circle_avatar_video c filter frame).1.rgb_f
      = (before_calcRect c filter frame).rgb_f := rfl
  obtain ⟨k1, k2, -, -, -⟩ := calcRect_keeps (before_calcRect c filter frame).decoder
  obtain ⟨o1, o2⟩ := before_calcRect_outputs c filter frame
  rw [hd, e2, k1, k2]
  exact ⟨o1, o2⟩

theorem box_next_cover (p j : Fin 3) :
    j = box_next (box_next p) ∨ j = box_next p ∨ j = p := by
  unfold box_next
  fin_cases p <;> fin_cases j <;> decide

theorem one_frame_ring (c : face_collaborators) (a0 : circle_avatar_video_data)
    (f0 : obs_source_frame) :
    (circle_avatar_video c a0 f0).1.decoder.box_list = box_next (ring_of a0).1 ∧
    (∀ j, j ≠ (circle_avatar_video c a0 f0).1.decoder.box_list →
      (circle_avatar_video c a0 f0).1.decoder.boxes j = (ring_of a0).2 j) ∧
    (ring_of (circle_avatar_video c a0 f0).1).1
      = (circle_avatar_video c a0 f0).1.decoder.box_list ∧
    (ring_of (circle_avatar_video c a0 f0).1).2
      = (circle_avatar_video c a0 f0).1.decoder.boxes := by
  have h1 := circle_avatar_video_ring c a0 f0
  generalize (circle_avatar_video c a0 f0).1 = a1 at h1 ⊢
  obtain ⟨b1, x1, r1a, r1b⟩ := h1
  refine ⟨b1, ?_, r1a, r1b⟩
  intro j hj
  rw [b1] at hj
  rw [x1, Function.update_noteq hj]

end CircleAvatar

/-! ## The mask entry point -/

namespace BackgroundMask

theorem tensor_step1_apply (ls : Nat) (b : Nat → Nat) (i : Nat) (t : Nat → ℚ) (j k : Nat) :
    tensor_step1 ls b i t j k =
      if k = ls * i + 3 * (255 - j) then (b (ls * i + 3 * j + 2) : ℚ) / 255
      else if k = ls * i + 3 * (255 - j) + 1 then (b (ls * i + 3 * j + 1) : ℚ) / 255
      else if k = ls * i + 3 * (255 - j) + 2 then (b (ls * i + 3 * j) : ℚ) / 255
      else t k := by
  have e : TFLITE_WIDTH - 1 - j = 255 - j := rfl
  simp only [tensor_step1, Function.update_apply, e]

theorem for_loop_tensor_step1 (ls : Nat) (b : Nat → Nat) (i : Nat) (t : Nat → ℚ) (n k : Nat)
    (hn : n ≤ 256) :
    for_loop (tensor_step1 ls b i) t n k =
      if ls * i + 3 * (256 - n) ≤ k ∧ k < ls * i + 768 then
        (b (ls * i + 3 * (255 - (k - ls * i) / 3) + (2 - (k - ls * i) % 3)) : ℚ) / 255
      else t k := by
  induction n with
  | zero =>
    rw [if_neg (by omega)]
    rfl
  | succ m ih =>
    have e : for_loop (tensor_step1 ls b i) t (m + 1)
        = tensor_step1 ls b i (for_loop (tensor_step1 ls b i) t m) m := rfl
    rw [e, tensor_step1_apply, ih (by omega)]
    generalize ls * i = base
    by_cases h0 : k = base + 3 * (255 - m)
    · have e1 : base + 3 * (255 - (k - base) / 3) + (2 - (k - base) % 3) = base + 3 * m + 2 := by
        omega
      rw [if_pos h0, if_pos (by omega), e1]
    · rw [if_neg h0]
      by_cases h1 : k = base + 3 * (255 - m) + 1
      · have e1 : base + 3 * (255 - (k - base) / 3) + (2 - (k - base) % 3)
            = base + 3 * m + 1 := by omega
        rw [if_pos h1, if_pos (by omega), e1]
      · rw [if_neg h1]
        by_cases h2 : k = base + 3 * (255 - m) + 2
        · have e1 : base + 3 * (255 - (k - base) / 3) + (2 - (k - base) % 3)
              = base + 3 * m := by omega
          rw [if_pos h2, if_pos (by omega), e1]
        · rw [if_neg h2]
          by_cases hc : base + 3 * (256 - m) ≤ k ∧ k < base + 768
          · rw [if_pos hc, if_pos (by omega)]
          · rw [if_neg hc, if_neg (by omega)]

theorem for_loop_rows1 (b : Nat → Nat) (t : Nat → ℚ) (n : Nat) (hn : n ≤ 256) (m k : Nat) :
    for_loop (fun (t : Nat → ℚ) (i : Nat) => for_loop (tensor_step1 768 b i) t n) t m k =
      if k < 768 * m ∧ 3 * (256 - n) ≤ k % 768 then
        (b (768 * (k / 768) + 3 * (255 - k % 768 / 3) + (2 - k % 3)) : ℚ) / 255
      else t k := by
  induction m with
  | zero =>
    rw [if_neg (by omega)]
    rfl
  | succ r ih =>
    have e : for_loop (fun (t : Nat → ℚ) (i : Nat) => for_loop (tensor_step1 768 b i) t n) t
          (r + 1)
        = for_loop (tensor_step1 768 b r)
            (for_loop (fun (t : Nat → ℚ) (i : Nat) => for_loop (tensor_step1 768 b i) t n) t r)
            n := rfl
    rw [e, for_loop_tensor_step1 768 b r _ n k hn, ih]
    by_cases hc : 768 * r + 3 * (256 - n) ≤ k ∧ k < 768 * r + 768
    · have e1 : 768 * r + 3 * (255 - (k - 768 * r) / 3) + (2 - (k - 768 * r) % 3)
          = 768 * (k / 768) + 3 * (255 - k % 768 / 3) + (2 - k % 3) := by omega
      rw [if_pos hc, if_pos (by omega), e1]
    · rw [if_neg hc]
      by_cases hd : k < 768 * r ∧ 3 * (256 - n) ≤ k % 768
      · rw [if_pos hd, if_pos (by omega)]
      · rw [if_neg hd, if_neg (by omega)]

/-- What the first tensor loop leaves in element `k`: the columns 127 to 255
of every row are written, from the source column `255 - column` with the
channels 0 and 2 exchanged; every other element keeps its value. -/
theorem tensor_pass1_apply (b : Nat → Nat) (t : Nat → ℚ) (k : Nat) :
    tensor_pass1 768 b t k =
      if k < 768 * 256 ∧ 381 ≤ k % 768 then
        (b (768 * (k / 768) + 3 * (255 - k % 768 / 3) + (2 - k % 3)) : ℚ) / 255
      else t k := by
  unfold tensor_pass1
  exact for_loop_rows1 b t (TFLITE_WIDTH / 2 + 1) (by decide) TFLITE_HEIGHT k

theorem tensor_step2_apply (ls : Nat) (b : Nat → Nat) (i : Nat) (t : Nat → ℚ) (j k : Nat) :
    tensor_step2 ls b i t j k =
      if k = ls * i + 3 * j then (b (ls * i + 3 * j + 2) : ℚ) / 255
      else if k = ls * i + 3 * j + 1 then (b (ls * i + 3 * j + 1) : ℚ) / 255
      else t k := by
  simp only [tensor_step2, Function.update_apply]

theorem for_loop_tensor_step2 (ls : Nat) (b : Nat → Nat) (i : Nat) (t : Nat → ℚ) (n k : Nat) :
    for_loop (tensor_step2 ls b i) t n k =
      if ls * i ≤ k ∧ k < ls * i + 3 * n ∧ (k - ls * i) % 3 ≠ 2 then
        (b (ls * i + 3 * ((k - ls * i) / 3) + (2 - (k - ls * i) % 3)) : ℚ) / 255
      else t k := by
  induction n with
  | zero =>
    rw [if_neg (by omega)]
    rfl
  | succ m ih =>
    have e : for_loop (tensor_step2 ls b i) t (m + 1)
        = tensor_step2 ls b i (for_loop (tensor_step2 ls b i) t m) m := rfl
    rw [e, tensor_step2_apply, ih]
    generalize ls * i = base
    by_cases h0 : k = base + 3 * m
    · have e1 : base + 3 * ((k - base) / 3) + (2 - (k - base) % 3) = base + 3 * m + 2 := by
        omega
      rw [if_pos h0, if_pos (by omega), e1]
    · rw [if_neg h0]
      by_cases h1 : k = base + 3 * m + 1
      · have e1 : base + 3 * ((k - base) / 3) + (2 - (k - base) % 3) = base + 3 * m + 1 := by
          omega
        rw [if_pos h1, if_pos (by omega), e1]
      · rw [if_neg h1]
        by_cases hc : base ≤ k ∧ k < base + 3 * m ∧ (k - base) % 3 ≠ 2
        · rw [if_pos hc, if_pos (by omega)]
        · rw [if_neg hc, if_neg (by omega)]

theorem for_loop_rows2 (b : Nat → Nat) (t : Nat → ℚ) (n : Nat) (hn : n ≤ 256) (m k : Nat) :
    for_loop (fun (t : Nat → ℚ) (i : Nat) => for_loop (tensor_step2 768 b i) t n) t m k =
      if k < 768 * m ∧ k % 768 < 3 * n ∧ k % 3 ≠ 2 then
        (b (768 * (k / 768) + 3 * (k % 768 / 3) + (2 - k % 3)) : ℚ) / 255
      else t k := by
  induction m with
  | zero =>
    rw [if_neg (by omega)]
    rfl
  | succ r ih =>
    have e : for_loop (fun (t : Nat → ℚ) (i : Nat) => for_loop (tensor_step2 768 b i) t n) t
          (r + 1)
        = for_loop (tensor_step2 768 b r)
            (for_loop (fun (t : Nat → ℚ) (i : Nat) => for_loop (tensor_step2 768 b i) t n) t r)
            n := rfl
    rw [e, for_loop_tensor_step2 768 b r _ n k, ih]
    by_cases hc : 768 * r ≤ k ∧ k < 768 * r + 3 * n ∧ (k - 768 * r) % 3 ≠ 2
    · have e1 : 768 * r + 3 * ((k - 768 * r) / 3) + (2 - (k - 768 * r) % 3)
          = 768 * (k / 768) + 3 * (k % 768 / 3) + (2 - k % 3) := by omega
      rw [if_pos hc, if_pos (by omega), e1]
    · rw [if_neg hc]
      by_cases hd : k < 768 * r ∧ k % 768 < 3 * n ∧ k % 3 ≠ 2
      · rw [if_pos hd, if_pos (by omega)]
      · rw [if_neg hd, if_neg (by omega)]

/-- What the second tensor loop leaves in element `k`: channels 0 and 1 of the
columns 0 to 128 of every row are written, from the same column with channel
0 taken from source channel 2; every other element, in particular every
channel 2, keeps its value. -/
theorem tensor_pass2_apply (b : Nat → Nat) (t : Nat → ℚ) (k : Nat) :
    tensor_pass2 768 b t k =
      if k < 768 * 256 ∧ k % 768 < 387 ∧ k % 3 ≠ 2 then
        (b (768 * (k / 768) + 3 * (k % 768 / 3) + (2 - k % 3)) : ℚ) / 255
      else t k := by
  unfold tensor_pass2
  exact for_loop_rows2 b t (TFLITE_WIDTH / 2 + 1) (by decide) TFLITE_HEIGHT k

/-- The elements both loops write and the elements neither writes, for every
row `i`, every pair of source buffers and every prior tensor. -/
theorem tensor_passes_sets (b b' : Nat → Nat) (t : Nat → ℚ) (i : Nat) (hi : i < 256) :
    (∀ col c, 127 ≤ col → col ≤ 128 → c < 2 →
      tensor_pass1 768 b t (768 * i + 3 * col + c)
        = (b (768 * i + 3 * (255 - col) + (2 - c)) : ℚ) / 255 ∧
      tensor_pass2 768 b' t (768 * i + 3 * col + c)
        = (b' (768 * i + 3 * col + (2 - c)) : ℚ) / 255) ∧
    (∀ col, col < 127 →
      tensor_pass1 768 b t (768 * i + 3 * col + 2) = t (768 * i + 3 * col + 2) ∧
      tensor_pass2 768 b' t (768 * i + 3 * col + 2) = t (768 * i + 3 * col + 2)) := by
  constructor
  · intro col c h1 h2 hc
    have e1 : 768 * ((768 * i + 3 * col + c) / 768) + 3 * (255 - (768 * i + 3 * col + c) % 768 / 3)
        + (2 - (768 * i + 3 * col + c) % 3) = 768 * i + 3 * (255 - col) + (2 - c) := by omega
    have e2 : 768 * ((768 * i + 3 * col + c) / 768) + 3 * ((768 * i + 3 * col + c) % 768 / 3)
        + (2 - (768 * i + 3 * col + c) % 3) = 768 * i + 3 * col + (2 - c) := by omega
    rw [tensor_pass1_apply, if_pos (by omega), tensor_pass2_apply, if_pos (by omega), e1, e2]
    exact ⟨rfl, rfl⟩
  · intro col h
    rw [tensor_pass1_apply, if_neg (by omega), tensor_pass2_apply, if_neg (by omega)]
    exact ⟨rfl, rfl⟩

theorem update_dimensions_fields (filter : background_mask_filter_data)
    (frame : obs_source_frame) :
    (update_dimensions filter frame).rgb_f = filter.rgb_f ∧
    (update_dimensions filter frame).rgb_linesize = filter.rgb_linesize ∧
    (update_dimensions filter frame).texturedata = filter.texturedata ∧
    (update_dimensions filter frame).mask_value = filter.mask_value ∧
    (update_dimensions filter frame).rgb_int = filter.rgb_int := by
  unfold update_dimensions
  split_ifs <;> exact ⟨rfl, rfl, rfl, rfl, rfl⟩

/-- The state `background_mask_video` returns: the tensor is the second loop
on the bytes scaled from the mirrored frame, run after the first loop on the
bytes scaled from the frame as given; the mask is the threshold of the
inference on that tensor; the frame returned is the mirrored frame. -/
theorem background_mask_video_fields (c : mask_collaborators)
    (filter : background_mask_filter_data) (frame : obs_source_frame) :
    (background_mask_video c filter frame).2 = mirror_inversion frame ∧
    (background_mask_video c filter frame).1.rgb_f
      = some (tensor_pass2 filter.rgb_linesize
          ((background_mask_video c filter frame).1.rgb_int.getD fun _ => 0)
          (tensor_pass1 filter.rgb_linesize
            ((after_pass1 c filter frame).rgb_int.getD fun _ => 0)
            (filter.rgb_f.getD fun _ => 0))) ∧
    (background_mask_video c filter frame).1.texturedata
      = some (mask_loop (c.infer ((background_mask_video c filter frame).1.rgb_f.getD fun _ => 0))
          filter.mask_value (filter.texturedata.getD fun _ => 0)) := by
  obtain ⟨h1, h2, h3, h4, -⟩ := update_dimensions_fields filter frame
  refine ⟨rfl, ?_, ?_⟩
  · have e : (background_mask_video c filter frame).1.rgb_f
        = some (tensor_pass2 (update_dimensions filter frame).rgb_linesize
          ((background_mask_video c filter frame).1.rgb_int.getD fun _ => 0)
          (tensor_pass1 (update_dimensions filter frame).rgb_linesize
            ((after_pass1 c filter frame).rgb_int.getD fun _ => 0)
            ((update_dimensions filter frame).rgb_f.getD fun _ => 0))) := rfl
    rw [e, h1, h2]
  · have e : (background_mask_video c filter frame).1.texturedata
        = some (mask_loop
          (c.infer ((background_mask_video c filter frame).1.rgb_f.getD fun _ => 0))
          (update_dimensions filter frame).mask_value
          ((update_dimensions filter frame).texturedata.getD fun _ => 0)) := rfl
    rw [e, h3, h4]

/-- C16 (the code departs from the claim): the two tensor loops neither write
disjoint sets nor cover the tensor. Element 2 (row 0, column 0, channel 2) is
written by neither loop: with every source byte 255 it still holds the 0 it
had, where the claim requires `255 / 255`, and so it does after
`background_mask_video` on a fresh filter. Element 381 (row 0, column 127,
channel 0) is written by both: the first loop sets it to `255 / 255` and the
second loop overwrites it with the byte of the second buffer. -/
theorem tensor_passes_gap_and_overlap :
    tensor_pass2 768 bytes_full (tensor_pass1 768 bytes_full tensor_zero) 2 = 0 ∧
    ((background_mask_video mask_collaborators_example mask_filter_created
      uyvy_row6).1.rgb_f.getD tensor_zero) 2 = 0 ∧
    (bytes_full 0 : ℚ) / 255 = 1 ∧
    tensor_pass1 768 bytes_full tensor_zero 381 = 1 ∧
    tensor_pass2 768 bytes_zero (tensor_pass1 768 bytes_full tensor_zero) 381 = 0 := by
  refine ⟨?_, ?_, ?_, ?_, ?_⟩
  · rw [tensor_pass2_apply, if_neg (by decide), tensor_pass1_apply, if_neg (by decide)]
    rfl
  · have h := (background_mask_video_fields mask_collaborators_example mask_filter_created
      uyvy_row6).2.1
    have e : mask_filter_created.rgb_linesize = 768 := rfl
    rw [e] at h
    rw [h, Option.getD_some, tensor_pass2_apply, if_neg (by decide), tensor_pass1_apply,
      if_neg (by decide)]
    rfl
  · norm_num [bytes_full]
  · rw [tensor_pass1_apply, if_pos (by decide)]
    norm_num [bytes_full]
  · rw [tensor_pass2_apply, if_pos (by decide)]
    norm_num [bytes_zero]

end BackgroundMask

/-! ## The frame returned, and frames of zero width or height -/

namespace BackgroundMask

theorem for_loop_const_body {σ : Type} (body : σ → Nat → σ) (h : ∀ s i, body s i = s) (init : σ)
    (n : Nat) : for_loop body init n = init := by
  induction n with
  | zero => rfl
  | succ n ih =>
    show body (for_loop body init n) n = init
    rw [h, ih]

theorem mirror_uyvy_small (width height : Nat) (d : Nat → Nat)
    (h : width < 4 ∨ height = 0) : mirror_uyvy width height d = d := by
  unfold mirror_uyvy
  rcases h with h | h
  · have e : width / 4 = 0 := by omega
    rw [e]
    exact for_loop_const_body _ (fun _ _ => rfl) d height
  · rw [h]
    rfl

/-- The frames `mirror_inversion` leaves as they are. -/
theorem mirror_inversion_unchanged (frame : obs_source_frame)
    (h : frame.format ≠ video_format.VIDEO_FORMAT_UYVY ∨ frame.width < 4 ∨ frame.height = 0) :
    mirror_inversion frame = frame := by
  obtain ⟨w, ht, fmt, d⟩ := frame
  unfold mirror_inversion
  by_cases hw : w = 0
  · rw [if_pos hw]
  · rw [if_neg hw]
    cases fmt with
    | other tag => rfl
    | VIDEO_FORMAT_UYVY =>
      have h2 : w < 4 ∨ ht = 0 := by
        rcases h with h | h | h
        · exact absurd rfl h
        · exact Or.inl h
        · exact Or.inr h
      show obs_source_frame.mk w ht video_format.VIDEO_FORMAT_UYVY (mirror_uyvy w ht d) = _
      rw [mirror_uyvy_small w ht d h2]

theorem mirror_inversion_uyvy (frame : obs_source_frame)
    (hf : frame.format = video_format.VIDEO_FORMAT_UYVY) (hw : frame.width ≠ 0) :
    mirror_inversion frame
      = { frame with data0 := mirror_uyvy frame.width frame.height frame.data0 } := by
  obtain ⟨w, ht, fmt, d⟩ := frame
  simp only at hf hw
  subst hf
  unfold mirror_inversion
  rw [if_neg hw]

/-- C11 (counterexample): `background_mask_video` does not return the pixel
data it was given when the frame is UYVY. For the row of six pixels whose byte
at offset `a` is `a`, the frame returned has byte 8 at offset 0 and byte 11
(the luma of pixel 5) at offset 1. -/
theorem background_mask_video_mirrors_uyvy :
    (background_mask_video mask_collaborators_example mask_filter_created uyvy_row6).2.data0 0 = 8 ∧
    (background_mask_video mask_collaborators_example mask_filter_created uyvy_row6).2.data0 1
      = 11 ∧
    uyvy_row6.data0 0 = 0 ∧
    uyvy_row6.data0 1 = 1 ∧
    (background_mask_video mask_collaborators_example mask_filter_created uyvy_row6).2
      ≠ uyvy_row6 := by
  have e : (background_mask_video mask_collaborators_example mask_filter_created uyvy_row6).2
      = mirror_inversion uyvy_row6 := rfl
  have h0 : (mirror_inversion uyvy_row6).data0 0 = 8 := by decide
  have h1 : (mirror_inversion uyvy_row6).data0 1 = 11 := by decide
  have u0 : uyvy_row6.data0 0 = 0 := by decide
  rw [e]
  refine ⟨h0, h1, u0, by decide, ?_⟩
  intro hc
  rw [hc, u0] at h0
  exact absurd h0 (by decide)

/-- C11 (amended): `circle_avatar_video` returns the frame it was given, for
every format. `background_mask_video` returns the frame after the in-place
`mirror_inversion`: the frame as given when the format is not UYVY, the width
is below 4 or the height is 0, and for a UYVY frame of nonzero width the frame
whose plane 0 went through the mirror loops. -/
theorem video_returns_frame (c : CircleAvatar.face_collaborators)
    (filter : CircleAvatar.circle_avatar_video_data) (mc : mask_collaborators)
    (mfilter : background_mask_filter_data) (frame : obs_source_frame) :
    (CircleAvatar.circle_avatar_video c filter frame).2 = frame ∧
    (background_mask_video mc mfilter frame).2 = mirror_inversion frame ∧
    (frame.format ≠ video_format.VIDEO_FORMAT_UYVY ∨ frame.width < 4 ∨ frame.height = 0 →
      (background_mask_video mc mfilter frame).2 = frame) ∧
    (frame.format = video_format.VIDEO_FORMAT_UYVY → frame.width ≠ 0 →
      (background_mask_video mc mfilter frame).2
        = { frame with data0 := mirror_uyvy frame.width frame.height frame.data0 }) := by
  have e : (background_mask_video mc mfilter frame).2 = mirror_inversion frame := rfl
  refine ⟨rfl, e, ?_, ?_⟩
  · intro h
    rw [e]
    exact mirror_inversion_unchanged frame h
  · intro hf hw
    rw [e]
    exact mirror_inversion_uyvy frame hf hw

end BackgroundMask

namespace CircleAvatar

open BackgroundMask (obs_source_frame video_format video_scale_info)

/-- With no score above the threshold `calcRect` reports the invalid box. -/
theorem calcRect_none (f : circle_avatar_filter_data)
    (h : ∀ i, i < ANCHORS_WIDTH → f.output_score_data i ≤ (HUMAN_THREHOLD : ℚ)) :
    (calcRect f).box_list = box_next f.box_list ∧
    (calcRect f).current_box = set_box_value (-1) (-1) (-1) (-1) ∧
    (calcRect f).boxes (box_next f.box_list) = set_box_value (-1) (-1) (-1) (-1) := by
  have hpos : calcRect_loop f.output_score_data = (-1, HUMAN_THREHOLD) :=
    calcRect_loop_none _ h
  rw [calcRect_eq, hpos]
  refine ⟨?_, ?_, ?_⟩ <;> simp

/-- One frame whose inference gives no score above the threshold. -/
theorem circle_avatar_video_none (c : face_collaborators) (filter : circle_avatar_video_data)
    (frame : obs_source_frame)
    (h : ∀ (t : Nat → ℚ) (i : Nat), i < ANCHORS_WIDTH → (c.infer t).2 i ≤ (HUMAN_THREHOLD : ℚ)) :
    (circle_avatar_video c filter frame).1.decoder.box_list = box_next (ring_of filter).1 ∧
    (circle_avatar_video c filter frame).1.decoder.current_box
      = set_box_value (-1) (-1) (-1) (-1) ∧
    (circle_avatar_video c filter frame).1.decoder.boxes (box_next (ring_of filter).1)
      = set_box_value (-1) (-1) (-1) (-1) ∧
    (circle_avatar_video c filter frame).1.faceCenter = some (1 / 2, 1 / 2) := by
  obtain ⟨-, hd, hc, -, -⟩ := circle_avatar_video_fields c filter frame
  obtain ⟨b1, -, -⟩ := before_calcRect_ring c filter frame
  obtain ⟨-, o2⟩ := before_calcRect_outputs c filter frame
  have hs : ∀ i, i < ANCHORS_WIDTH →
      (before_calcRect c filter frame).decoder.output_score_data i ≤ (HUMAN_THREHOLD : ℚ) := by
    intro i hi
    rw [o2]
    exact h _ i hi
  obtain ⟨n1, n2, n3⟩ := calcRect_none (before_calcRect c filter frame).decoder hs
  rw [hd, hc, n1, n2, b1] at *
  rw [b1] at n3
  refine ⟨rfl, rfl, n3, ?_⟩
  rw [publish_face_invalid _ _ frame (by left; norm_num [set_box_value])]

end CircleAvatar

namespace CircleAvatar

open BackgroundMask (obs_source_frame video_format video_scale_info)

end CircleAvatar
